import Mathlib

/-! KernelBytecode: instruction encoding and operand decoders.

A shallow embedding of `runtime/vm/constants_kbc.h`: the bytecode list, the
`Opcode` enumeration derived from it, and the static decoding functions of
`class KernelBytecode`.

Conventions of the embedding.

* `uint8_t` values are `Fin 256`; `uint32_t` results are natural numbers reduced
  modulo `2 ^ 32`; `int32_t` results are integers.
* Bytecode memory is a map from addresses to bytes, and a `const KBCInstr*` is an
  address, so `bc[i]` is the byte stored at `bc + i`.
* A conversion to a signed type of width `w` keeps the low `w` bits and reads them
  in two's complement; `>>` on a signed value is the arithmetic shift.
* `intptr_t` has 32 or 64 bits; functions computing in it take the width `w` as a
  parameter, and arithmetic in it wraps around.
* An `ASSERT` that fails in a debug build makes the function return `none`.
-/

namespace KernelBytecode

/-! ## The bytecode list -/

/-- Operand encoding of a bytecode (`zero` is the form written `0` in the list). -/
inductive OperandForm where
  | zero | A | D | X | T | A_D | A_X | A_E | A_Y | D_F | A_B_C
  deriving DecidableEq, Repr

/-- Kind of a bytecode: old, wide, reserved or ordinary. -/
inductive BytecodeKind where
  | OLD | WIDE | RESV | ORDN
  deriving DecidableEq, Repr

/-- Meaning of an operand (`ign` is the tag written `___` in the list). -/
inductive OperandRole where
  | ign | num | lit | reg | xeg | tgt
  deriving DecidableEq, Repr

/-- One line `V(name, encoding, kind, op1, op2, op3)` of the bytecode list. -/
structure BytecodeEntry where
  name : String
  encoding : OperandForm
  kind : BytecodeKind
  op1 : OperandRole
  op2 : OperandRole
  op3 : OperandRole
  deriving DecidableEq, Repr

/-- The list macro argument `V`, here building one entry. -/
abbrev V (name : String) (encoding : OperandForm) (kind : BytecodeKind)
    (op1 op2 op3 : OperandRole) : BytecodeEntry :=
  ⟨name, encoding, kind, op1, op2, op3⟩

def PUBLIC_KERNEL_BYTECODES_LIST : List BytecodeEntry := [
  V "Trap_Old" .zero .OLD .ign .ign .ign,
  V "Entry_Old" .D .OLD .num .ign .ign,
  V "EntryFixed_Old" .A_D .OLD .num .num .ign,
  V "EntryOptional_Old" .A_B_C .OLD .num .num .num,
  V "LoadConstant_Old" .A_D .OLD .reg .lit .ign,
  V "Frame_Old" .D .OLD .num .ign .ign,
  V "CheckFunctionTypeArgs_Old" .A_D .OLD .num .reg .ign,
  V "CheckStack_Old" .A .OLD .num .ign .ign,
  V "Allocate_Old" .D .OLD .lit .ign .ign,
  V "AllocateT_Old" .zero .OLD .ign .ign .ign,
  V "CreateArrayTOS_Old" .zero .OLD .ign .ign .ign,
  V "AllocateContext_Old" .D .OLD .num .ign .ign,
  V "CloneContext_Old" .D .OLD .num .ign .ign,
  V "LoadContextParent_Old" .zero .OLD .ign .ign .ign,
  V "StoreContextParent_Old" .zero .OLD .ign .ign .ign,
  V "LoadContextVar_Old" .D .OLD .num .ign .ign,
  V "StoreContextVar_Old" .D .OLD .num .ign .ign,
  V "PushConstant_Old" .D .OLD .lit .ign .ign,
  V "PushNull_Old" .zero .OLD .ign .ign .ign,
  V "PushTrue_Old" .zero .OLD .ign .ign .ign,
  V "PushFalse_Old" .zero .OLD .ign .ign .ign,
  V "PushInt_Old" .X .OLD .num .ign .ign,
  V "Drop1_Old" .zero .OLD .ign .ign .ign,
  V "Push_Old" .X .OLD .xeg .ign .ign,
  V "PopLocal_Old" .X .OLD .xeg .ign .ign,
  V "StoreLocal_Old" .X .OLD .xeg .ign .ign,
  V "LoadFieldTOS_Old" .D .OLD .lit .ign .ign,
  V "StoreFieldTOS_Old" .D .OLD .lit .ign .ign,
  V "StoreIndexedTOS_Old" .zero .OLD .ign .ign .ign,
  V "PushStatic_Old" .D .OLD .lit .ign .ign,
  V "StoreStaticTOS_Old" .D .OLD .lit .ign .ign,
  V "Jump_Old" .T .OLD .tgt .ign .ign,
  V "JumpIfNoAsserts_Old" .T .OLD .tgt .ign .ign,
  V "JumpIfNotZeroTypeArgs_Old" .T .OLD .tgt .ign .ign,
  V "JumpIfEqStrict_Old" .T .OLD .tgt .ign .ign,
  V "JumpIfNeStrict_Old" .T .OLD .tgt .ign .ign,
  V "JumpIfTrue_Old" .T .OLD .tgt .ign .ign,
  V "JumpIfFalse_Old" .T .OLD .tgt .ign .ign,
  V "JumpIfNull_Old" .T .OLD .tgt .ign .ign,
  V "JumpIfNotNull_Old" .T .OLD .tgt .ign .ign,
  V "Unused00_Old" .zero .RESV .num .num .ign,
  V "InterfaceCall_Old" .A_D .OLD .num .num .ign,
  V "DynamicCall_Old" .A_D .OLD .num .num .ign,
  V "NativeCall_Old" .D .OLD .lit .ign .ign,
  V "ReturnTOS_Old" .zero .OLD .ign .ign .ign,
  V "AssertAssignable_Old" .A_D .OLD .num .lit .ign,
  V "AssertBoolean_Old" .A .OLD .num .ign .ign,
  V "AssertSubtype_Old" .zero .OLD .ign .ign .ign,
  V "LoadTypeArgumentsField_Old" .D .OLD .lit .ign .ign,
  V "InstantiateType_Old" .D .OLD .lit .ign .ign,
  V "InstantiateTypeArgumentsTOS_Old" .A_D .OLD .num .lit .ign,
  V "Throw_Old" .A .OLD .num .ign .ign,
  V "MoveSpecial_Old" .A_X .OLD .num .xeg .ign,
  V "SetFrame_Old" .A .OLD .num .ign .num,
  V "BooleanNegateTOS_Old" .zero .OLD .ign .ign .ign,
  V "EqualsNull_Old" .zero .OLD .ign .ign .ign,
  V "NegateInt_Old" .zero .OLD .ign .ign .ign,
  V "AddInt_Old" .zero .OLD .ign .ign .ign,
  V "SubInt_Old" .zero .OLD .ign .ign .ign,
  V "MulInt_Old" .zero .OLD .ign .ign .ign,
  V "TruncDivInt_Old" .zero .OLD .ign .ign .ign,
  V "ModInt_Old" .zero .OLD .ign .ign .ign,
  V "BitAndInt_Old" .zero .OLD .ign .ign .ign,
  V "BitOrInt_Old" .zero .OLD .ign .ign .ign,
  V "BitXorInt_Old" .zero .OLD .ign .ign .ign,
  V "ShlInt_Old" .zero .OLD .ign .ign .ign,
  V "ShrInt_Old" .zero .OLD .ign .ign .ign,
  V "CompareIntEq_Old" .zero .OLD .ign .ign .ign,
  V "CompareIntGt_Old" .zero .OLD .ign .ign .ign,
  V "CompareIntLt_Old" .zero .OLD .ign .ign .ign,
  V "CompareIntGe_Old" .zero .OLD .ign .ign .ign,
  V "CompareIntLe_Old" .zero .OLD .ign .ign .ign,
  V "DirectCall_Old" .A_D .OLD .num .num .ign,
  V "AllocateClosure_Old" .D .OLD .lit .ign .ign,
  V "UncheckedInterfaceCall_Old" .A_D .OLD .num .num .ign,
  V "NegateDouble_Old" .zero .OLD .ign .ign .ign,
  V "AddDouble_Old" .zero .OLD .ign .ign .ign,
  V "SubDouble_Old" .zero .OLD .ign .ign .ign,
  V "MulDouble_Old" .zero .OLD .ign .ign .ign,
  V "DivDouble_Old" .zero .OLD .ign .ign .ign,
  V "CompareDoubleEq_Old" .zero .OLD .ign .ign .ign,
  V "CompareDoubleGt_Old" .zero .OLD .ign .ign .ign,
  V "CompareDoubleLt_Old" .zero .OLD .ign .ign .ign,
  V "CompareDoubleGe_Old" .zero .OLD .ign .ign .ign,
  V "CompareDoubleLe_Old" .zero .OLD .ign .ign .ign,
  V "Trap" .zero .ORDN .ign .ign .ign,
  V "Entry" .D .ORDN .num .ign .ign,
  V "Entry_Wide" .D .WIDE .num .ign .ign,
  V "EntryFixed" .A_E .ORDN .num .num .ign,
  V "EntryFixed_Wide" .A_E .WIDE .num .num .ign,
  V "EntryOptional" .A_B_C .ORDN .num .num .num,
  V "Unused00" .zero .RESV .ign .ign .ign,
  V "LoadConstant" .A_E .ORDN .reg .lit .ign,
  V "LoadConstant_Wide" .A_E .WIDE .reg .lit .ign,
  V "Frame" .D .ORDN .num .ign .ign,
  V "Frame_Wide" .D .WIDE .num .ign .ign,
  V "CheckFunctionTypeArgs" .A_E .ORDN .num .reg .ign,
  V "CheckFunctionTypeArgs_Wide" .A_E .WIDE .num .reg .ign,
  V "CheckStack" .A .ORDN .num .ign .ign,
  V "Unused01" .zero .RESV .ign .ign .ign,
  V "Unused02" .zero .RESV .ign .ign .ign,
  V "Unused03" .zero .RESV .ign .ign .ign,
  V "Allocate" .D .ORDN .lit .ign .ign,
  V "Allocate_Wide" .D .WIDE .lit .ign .ign,
  V "AllocateT" .zero .ORDN .ign .ign .ign,
  V "CreateArrayTOS" .zero .ORDN .ign .ign .ign,
  V "AllocateClosure" .D .ORDN .lit .ign .ign,
  V "AllocateClosure_Wide" .D .WIDE .lit .ign .ign,
  V "AllocateContext" .A_E .ORDN .num .ign .ign,
  V "AllocateContext_Wide" .A_E .WIDE .num .ign .ign,
  V "CloneContext" .A_E .ORDN .num .ign .ign,
  V "CloneContext_Wide" .A_E .WIDE .num .ign .ign,
  V "LoadContextParent" .zero .ORDN .ign .ign .ign,
  V "StoreContextParent" .zero .ORDN .ign .ign .ign,
  V "LoadContextVar" .A_E .ORDN .num .ign .ign,
  V "LoadContextVar_Wide" .A_E .WIDE .num .ign .ign,
  V "Unused04" .zero .RESV .ign .ign .ign,
  V "Unused05" .zero .RESV .ign .ign .ign,
  V "StoreContextVar" .A_E .ORDN .num .ign .ign,
  V "StoreContextVar_Wide" .A_E .WIDE .num .ign .ign,
  V "PushConstant" .D .ORDN .lit .ign .ign,
  V "PushConstant_Wide" .D .WIDE .lit .ign .ign,
  V "Unused06" .zero .RESV .ign .ign .ign,
  V "Unused07" .zero .RESV .ign .ign .ign,
  V "PushTrue" .zero .ORDN .ign .ign .ign,
  V "PushFalse" .zero .ORDN .ign .ign .ign,
  V "PushInt" .X .ORDN .num .ign .ign,
  V "PushInt_Wide" .X .WIDE .num .ign .ign,
  V "Unused08" .zero .RESV .ign .ign .ign,
  V "Unused09" .zero .RESV .ign .ign .ign,
  V "Unused10" .zero .RESV .ign .ign .ign,
  V "Unused11" .zero .RESV .ign .ign .ign,
  V "PushNull" .zero .ORDN .ign .ign .ign,
  V "Drop1" .zero .ORDN .ign .ign .ign,
  V "Push" .X .ORDN .xeg .ign .ign,
  V "Push_Wide" .X .WIDE .xeg .ign .ign,
  V "Unused12" .zero .RESV .ign .ign .ign,
  V "Unused13" .zero .RESV .ign .ign .ign,
  V "Unused14" .zero .RESV .ign .ign .ign,
  V "Unused15" .zero .RESV .ign .ign .ign,
  V "Unused16" .zero .RESV .ign .ign .ign,
  V "Unused17" .zero .RESV .ign .ign .ign,
  V "PopLocal" .X .ORDN .xeg .ign .ign,
  V "PopLocal_Wide" .X .WIDE .xeg .ign .ign,
  V "Unused18" .zero .RESV .ign .ign .ign,
  V "Unused19" .zero .RESV .ign .ign .ign,
  V "StoreLocal" .X .ORDN .xeg .ign .ign,
  V "StoreLocal_Wide" .X .WIDE .xeg .ign .ign,
  V "LoadFieldTOS" .D .ORDN .lit .ign .ign,
  V "LoadFieldTOS_Wide" .D .WIDE .lit .ign .ign,
  V "StoreFieldTOS" .D .ORDN .lit .ign .ign,
  V "StoreFieldTOS_Wide" .D .WIDE .lit .ign .ign,
  V "StoreIndexedTOS" .zero .ORDN .ign .ign .ign,
  V "Unused20" .zero .RESV .ign .ign .ign,
  V "PushStatic" .D .ORDN .lit .ign .ign,
  V "PushStatic_Wide" .D .WIDE .lit .ign .ign,
  V "StoreStaticTOS" .D .ORDN .lit .ign .ign,
  V "StoreStaticTOS_Wide" .D .WIDE .lit .ign .ign,
  V "Jump" .T .ORDN .tgt .ign .ign,
  V "Jump_Wide" .T .WIDE .tgt .ign .ign,
  V "JumpIfNoAsserts" .T .ORDN .tgt .ign .ign,
  V "JumpIfNoAsserts_Wide" .T .WIDE .tgt .ign .ign,
  V "JumpIfNotZeroTypeArgs" .T .ORDN .tgt .ign .ign,
  V "JumpIfNotZeroTypeArgs_Wide" .T .WIDE .tgt .ign .ign,
  V "JumpIfEqStrict" .T .ORDN .tgt .ign .ign,
  V "JumpIfEqStrict_Wide" .T .WIDE .tgt .ign .ign,
  V "JumpIfNeStrict" .T .ORDN .tgt .ign .ign,
  V "JumpIfNeStrict_Wide" .T .WIDE .tgt .ign .ign,
  V "JumpIfTrue" .T .ORDN .tgt .ign .ign,
  V "JumpIfTrue_Wide" .T .WIDE .tgt .ign .ign,
  V "JumpIfFalse" .T .ORDN .tgt .ign .ign,
  V "JumpIfFalse_Wide" .T .WIDE .tgt .ign .ign,
  V "JumpIfNull" .T .ORDN .tgt .ign .ign,
  V "JumpIfNull_Wide" .T .WIDE .tgt .ign .ign,
  V "JumpIfNotNull" .T .ORDN .tgt .ign .ign,
  V "JumpIfNotNull_Wide" .T .WIDE .tgt .ign .ign,
  V "DirectCall" .D_F .ORDN .num .num .ign,
  V "DirectCall_Wide" .D_F .WIDE .num .num .ign,
  V "Unused21" .zero .RESV .ign .ign .ign,
  V "Unused22" .zero .RESV .ign .ign .ign,
  V "InterfaceCall" .D_F .ORDN .num .num .ign,
  V "InterfaceCall_Wide" .D_F .WIDE .num .num .ign,
  V "Unused23" .zero .RESV .ign .ign .ign,
  V "Unused24" .zero .RESV .ign .ign .ign,
  V "Unused25" .zero .RESV .ign .ign .ign,
  V "Unused26" .zero .RESV .ign .ign .ign,
  V "Unused27" .zero .RESV .ign .ign .ign,
  V "Unused28" .zero .RESV .ign .ign .ign,
  V "UncheckedInterfaceCall" .D_F .ORDN .num .num .ign,
  V "UncheckedInterfaceCall_Wide" .D_F .WIDE .num .num .ign,
  V "DynamicCall" .D_F .ORDN .num .num .ign,
  V "DynamicCall_Wide" .D_F .WIDE .num .num .ign,
  V "NativeCall" .D .ORDN .lit .ign .ign,
  V "NativeCall_Wide" .D .WIDE .lit .ign .ign,
  V "ReturnTOS" .zero .ORDN .ign .ign .ign,
  V "Unused29" .zero .RESV .ign .ign .ign,
  V "AssertAssignable" .A_E .ORDN .num .lit .ign,
  V "AssertAssignable_Wide" .A_E .WIDE .num .lit .ign,
  V "Unused30" .zero .RESV .ign .ign .ign,
  V "Unused31" .zero .RESV .ign .ign .ign,
  V "AssertBoolean" .A .ORDN .num .ign .ign,
  V "AssertSubtype" .zero .ORDN .ign .ign .ign,
  V "LoadTypeArgumentsField" .D .ORDN .lit .ign .ign,
  V "LoadTypeArgumentsField_Wide" .D .WIDE .lit .ign .ign,
  V "InstantiateType" .D .ORDN .lit .ign .ign,
  V "InstantiateType_Wide" .D .WIDE .lit .ign .ign,
  V "InstantiateTypeArgumentsTOS" .A_E .ORDN .num .lit .ign,
  V "InstantiateTypeArgumentsTOS_Wide" .A_E .WIDE .num .lit .ign,
  V "Unused32" .zero .RESV .ign .ign .ign,
  V "Unused33" .zero .RESV .ign .ign .ign,
  V "Unused34" .zero .RESV .ign .ign .ign,
  V "Unused35" .zero .RESV .ign .ign .ign,
  V "Throw" .A .ORDN .num .ign .ign,
  V "SetFrame" .A .ORDN .num .ign .num,
  V "MoveSpecial" .A_Y .ORDN .num .xeg .ign,
  V "MoveSpecial_Wide" .A_Y .WIDE .num .xeg .ign,
  V "BooleanNegateTOS" .zero .ORDN .ign .ign .ign,
  V "EqualsNull" .zero .ORDN .ign .ign .ign,
  V "Unused36" .zero .RESV .ign .ign .ign,
  V "Unused37" .zero .RESV .ign .ign .ign,
  V "NegateInt" .zero .ORDN .ign .ign .ign,
  V "AddInt" .zero .ORDN .ign .ign .ign,
  V "SubInt" .zero .ORDN .ign .ign .ign,
  V "MulInt" .zero .ORDN .ign .ign .ign,
  V "TruncDivInt" .zero .ORDN .ign .ign .ign,
  V "ModInt" .zero .ORDN .ign .ign .ign,
  V "BitAndInt" .zero .ORDN .ign .ign .ign,
  V "BitOrInt" .zero .ORDN .ign .ign .ign,
  V "BitXorInt" .zero .ORDN .ign .ign .ign,
  V "ShlInt" .zero .ORDN .ign .ign .ign,
  V "ShrInt" .zero .ORDN .ign .ign .ign,
  V "CompareIntEq" .zero .ORDN .ign .ign .ign,
  V "CompareIntGt" .zero .ORDN .ign .ign .ign,
  V "CompareIntLt" .zero .ORDN .ign .ign .ign,
  V "CompareIntGe" .zero .ORDN .ign .ign .ign,
  V "CompareIntLe" .zero .ORDN .ign .ign .ign,
  V "NegateDouble" .zero .ORDN .ign .ign .ign,
  V "AddDouble" .zero .ORDN .ign .ign .ign,
  V "SubDouble" .zero .ORDN .ign .ign .ign,
  V "MulDouble" .zero .ORDN .ign .ign .ign,
  V "DivDouble" .zero .ORDN .ign .ign .ign,
  V "CompareDoubleEq" .zero .ORDN .ign .ign .ign,
  V "CompareDoubleGt" .zero .ORDN .ign .ign .ign,
  V "CompareDoubleLt" .zero .ORDN .ign .ign .ign,
  V "CompareDoubleGe" .zero .ORDN .ign .ign .ign,
  V "CompareDoubleLe" .zero .ORDN .ign .ign .ign]

def INTERNAL_KERNEL_BYTECODES_LIST : List BytecodeEntry := [
  V "VMInternal_ImplicitGetter" .zero .ORDN .ign .ign .ign,
  V "VMInternal_ImplicitSetter" .zero .ORDN .ign .ign .ign,
  V "VMInternal_ImplicitStaticGetter" .zero .ORDN .ign .ign .ign,
  V "VMInternal_MethodExtractor" .zero .ORDN .ign .ign .ign,
  V "VMInternal_InvokeClosure" .zero .ORDN .ign .ign .ign,
  V "VMInternal_InvokeField" .zero .ORDN .ign .ign .ign,
  V "VMInternal_ForwardDynamicInvocation" .zero .ORDN .ign .ign .ign,
  V "VMInternal_NoSuchMethodDispatcher" .zero .ORDN .ign .ign .ign,
  V "VMInternal_ImplicitStaticClosure" .zero .ORDN .ign .ign .ign,
  V "VMInternal_ImplicitInstanceClosure" .zero .ORDN .ign .ign .ign]

/-- The macro `KERNEL_BYTECODES_LIST`: the public list followed by the internal one. -/
def KERNEL_BYTECODES_LIST : List BytecodeEntry :=
  PUBLIC_KERNEL_BYTECODES_LIST ++ INTERNAL_KERNEL_BYTECODES_LIST

/-! ## The opcode enumeration -/

/-- Values of `enum Opcode`, as the integers they are compared and indexed with. -/
abbrev Opcode := Nat

/-- Value of the enumerator `k##name` of `enum Opcode`: the position of `name` in
the bytecode list. -/
def opcodeValue (name : String) : Opcode :=
  (KERNEL_BYTECODES_LIST.map BytecodeEntry.name).indexOf name

/-- Enumerator `kTrap`, the first opcode after the old ones. -/
def kTrap : Opcode := opcodeValue "Trap"

/-! ## Machine integers -/

/-- Conversion to `uint16_t`. -/
def toUint16 (n : Nat) : Nat := n % 2 ^ 16

/-- Conversion to `uint32_t`. -/
def toUint32 (n : Nat) : Nat := n % 2 ^ 32

/-- Conversion of a non-negative value to the signed integer type of `w` bits: the
low `w` bits read in two's complement. -/
def toSigned (w : Nat) (n : Nat) : Int :=
  if n % 2 ^ w < 2 ^ (w - 1) then ((n % 2 ^ w : Nat) : Int)
  else ((n % 2 ^ w : Nat) : Int) - ((2 ^ w : Nat) : Int)

/-- Conversion to `int8_t`. -/
def toInt8 (n : Nat) : Int := toSigned 8 n

/-- Conversion to `int16_t`. -/
def toInt16 (n : Nat) : Int := toSigned 16 n

/-- Conversion to `int32_t`. -/
def toInt32 (n : Nat) : Int := toSigned 32 n

/-! ## Bytecode memory -/

/-- The type `KBCInstr` (`typedef uint8_t KBCInstr`). -/
abbrev KBCInstr := Fin 256

/-- Bytecode memory: the byte stored at each address. -/
abbrev Memory := Int → KBCInstr

/-- The expression `bc[i]` for a pointer `bc` into `mem`, as an unsigned value. -/
def byteAt (mem : Memory) (bc : Int) (i : Int) : Nat := (mem (bc + i)).val

/-- Memory holding the bytes `bytes` from address `0` on, and zero elsewhere. -/
def memoryOf (bytes : List KBCInstr) : Memory :=
  fun a => if 0 ≤ a then bytes.getD a.toNat 0 else 0

/-! ## class KernelBytecode: decoding -/

/-- Constant `kWideModifier`. -/
def kWideModifier : Nat := 1

/-- Function `DecodeOpcode`: `static_cast<Opcode>(bc[0])`. -/
def DecodeOpcode (mem : Memory) (bc : Int) : Opcode := byteAt mem bc 0

/-- Function `IsOld`. -/
def IsOld (mem : Memory) (instr : Int) : Bool :=
  decide (DecodeOpcode mem instr < kTrap)

/-- Function `IsWide`; meant for instructions with wide variants. -/
def IsWide (mem : Memory) (instr : Int) : Bool :=
  (DecodeOpcode mem instr &&& kWideModifier) != 0

/-- Function `DecodeA`. -/
def DecodeA (mem : Memory) (bc : Int) : KBCInstr := mem (bc + 1)

/-- Function `DecodeB`. -/
def DecodeB (mem : Memory) (bc : Int) : KBCInstr := mem (bc + 2)

/-- Function `DecodeC`. -/
def DecodeC (mem : Memory) (bc : Int) : KBCInstr := mem (bc + 3)

/-- Function `DecodeD`, returning `uint32_t`. In the old branch the `uint16_t`
operands are promoted to `int` before `<<` and `|`. -/
def DecodeD (mem : Memory) (bc : Int) : Nat :=
  if IsOld mem bc then
    toUint32 (toUint16 (byteAt mem bc 2) ||| (toUint16 (byteAt mem bc 3) <<< 8))
  else if IsWide mem bc then
    toUint32 (byteAt mem bc 1) |||
      toUint32 (toUint32 (byteAt mem bc 2) <<< 8) |||
      toUint32 (toUint32 (byteAt mem bc 3) <<< 16) |||
      toUint32 (toUint32 (byteAt mem bc 4) <<< 24)
  else
    toUint32 (byteAt mem bc 1)

/-- Function `DecodeX`, returning `int32_t`. -/
def DecodeX (mem : Memory) (bc : Int) : Int :=
  if IsOld mem bc then
    toInt16 (toUint16 (byteAt mem bc 2) ||| (toUint16 (byteAt mem bc 3) <<< 8))
  else if IsWide mem bc then
    toInt32 (toUint32 (byteAt mem bc 1) |||
      toUint32 (toUint32 (byteAt mem bc 2) <<< 8) |||
      toUint32 (toUint32 (byteAt mem bc 3) <<< 16) |||
      toUint32 (toUint32 (byteAt mem bc 4) <<< 24))
  else
    toInt8 (byteAt mem bc 1)

/-- Function `DecodeT`, returning `int32_t`. -/
def DecodeT (mem : Memory) (bc : Int) : Int :=
  if IsOld mem bc then
    toInt32 (toUint32 (toUint32 (byteAt mem bc 1) <<< 8) |||
      toUint32 (toUint32 (byteAt mem bc 2) <<< 16) |||
      toUint32 (toUint32 (byteAt mem bc 3) <<< 24)) >>> (8 - 2 : Nat)
  else if IsWide mem bc then
    toInt32 (toUint32 (toUint32 (byteAt mem bc 1) <<< 8) |||
      toUint32 (toUint32 (byteAt mem bc 2) <<< 16) |||
      toUint32 (toUint32 (byteAt mem bc 3) <<< 24)) >>> (8 : Nat)
  else
    toInt8 (byteAt mem bc 1)

/-- Function `DecodeE`, returning `uint32_t`. -/
def DecodeE (mem : Memory) (bc : Int) : Nat :=
  if IsOld mem bc then
    toUint32 (toUint16 (byteAt mem bc 2) ||| (toUint16 (byteAt mem bc 3) <<< 8))
  else if IsWide mem bc then
    toUint32 (byteAt mem bc 2) |||
      toUint32 (toUint32 (byteAt mem bc 3) <<< 8) |||
      toUint32 (toUint32 (byteAt mem bc 4) <<< 16) |||
      toUint32 (toUint32 (byteAt mem bc 5) <<< 24)
  else
    toUint32 (byteAt mem bc 2)

/-- Function `DecodeY`, returning `int32_t`. -/
def DecodeY (mem : Memory) (bc : Int) : Int :=
  if IsOld mem bc then
    toInt16 (toUint16 (byteAt mem bc 2) ||| (toUint16 (byteAt mem bc 3) <<< 8))
  else if IsWide mem bc then
    toInt32 (toUint32 (byteAt mem bc 2) |||
      toUint32 (toUint32 (byteAt mem bc 3) <<< 8) |||
      toUint32 (toUint32 (byteAt mem bc 4) <<< 16) |||
      toUint32 (toUint32 (byteAt mem bc 5) <<< 24))
  else
    toInt8 (byteAt mem bc 2)

/-- Function `DecodeF`. -/
def DecodeF (mem : Memory) (bc : Int) : KBCInstr :=
  if IsOld mem bc then mem (bc + 1)
  else if IsWide mem bc then mem (bc + 5)
  else mem (bc + 2)

/-- Function `Next`. The array `kInstructionSize` is declared in the class and
defined in another translation unit, so it is a parameter here. -/
def Next (kInstructionSize : Opcode → Int) (mem : Memory) (bc : Int) : Int :=
  bc + kInstructionSize (DecodeOpcode mem bc)

/-! ## Enumerators of `enum Opcode` used below -/

/-- Enumerator `kJump_Old`. -/
def kJump_Old : Opcode := opcodeValue "Jump_Old"

/-- Enumerator `kJumpIfNoAsserts_Old`. -/
def kJumpIfNoAsserts_Old : Opcode := opcodeValue "JumpIfNoAsserts_Old"

/-- Enumerator `kJumpIfNotZeroTypeArgs_Old`. -/
def kJumpIfNotZeroTypeArgs_Old : Opcode := opcodeValue "JumpIfNotZeroTypeArgs_Old"

/-- Enumerator `kJumpIfEqStrict_Old`. -/
def kJumpIfEqStrict_Old : Opcode := opcodeValue "JumpIfEqStrict_Old"

/-- Enumerator `kJumpIfNeStrict_Old`. -/
def kJumpIfNeStrict_Old : Opcode := opcodeValue "JumpIfNeStrict_Old"

/-- Enumerator `kJumpIfTrue_Old`. -/
def kJumpIfTrue_Old : Opcode := opcodeValue "JumpIfTrue_Old"

/-- Enumerator `kJumpIfFalse_Old`. -/
def kJumpIfFalse_Old : Opcode := opcodeValue "JumpIfFalse_Old"

/-- Enumerator `kJumpIfNull_Old`. -/
def kJumpIfNull_Old : Opcode := opcodeValue "JumpIfNull_Old"

/-- Enumerator `kJumpIfNotNull_Old`. -/
def kJumpIfNotNull_Old : Opcode := opcodeValue "JumpIfNotNull_Old"

/-- Enumerator `kJump`. -/
def kJump : Opcode := opcodeValue "Jump"

/-- Enumerator `kJump_Wide`. -/
def kJump_Wide : Opcode := opcodeValue "Jump_Wide"

/-- Enumerator `kJumpIfNoAsserts`. -/
def kJumpIfNoAsserts : Opcode := opcodeValue "JumpIfNoAsserts"

/-- Enumerator `kJumpIfNoAsserts_Wide`. -/
def kJumpIfNoAsserts_Wide : Opcode := opcodeValue "JumpIfNoAsserts_Wide"

/-- Enumerator `kJumpIfNotZeroTypeArgs`. -/
def kJumpIfNotZeroTypeArgs : Opcode := opcodeValue "JumpIfNotZeroTypeArgs"

/-- Enumerator `kJumpIfNotZeroTypeArgs_Wide`. -/
def kJumpIfNotZeroTypeArgs_Wide : Opcode := opcodeValue "JumpIfNotZeroTypeArgs_Wide"

/-- Enumerator `kJumpIfEqStrict`. -/
def kJumpIfEqStrict : Opcode := opcodeValue "JumpIfEqStrict"

/-- Enumerator `kJumpIfEqStrict_Wide`. -/
def kJumpIfEqStrict_Wide : Opcode := opcodeValue "JumpIfEqStrict_Wide"

/-- Enumerator `kJumpIfNeStrict`. -/
def kJumpIfNeStrict : Opcode := opcodeValue "JumpIfNeStrict"

/-- Enumerator `kJumpIfNeStrict_Wide`. -/
def kJumpIfNeStrict_Wide : Opcode := opcodeValue "JumpIfNeStrict_Wide"

/-- Enumerator `kJumpIfTrue`. -/
def kJumpIfTrue : Opcode := opcodeValue "JumpIfTrue"

/-- Enumerator `kJumpIfTrue_Wide`. -/
def kJumpIfTrue_Wide : Opcode := opcodeValue "JumpIfTrue_Wide"

/-- Enumerator `kJumpIfFalse`. -/
def kJumpIfFalse : Opcode := opcodeValue "JumpIfFalse"

/-- Enumerator `kJumpIfFalse_Wide`. -/
def kJumpIfFalse_Wide : Opcode := opcodeValue "JumpIfFalse_Wide"

/-- Enumerator `kJumpIfNull`. -/
def kJumpIfNull : Opcode := opcodeValue "JumpIfNull"

/-- Enumerator `kJumpIfNull_Wide`. -/
def kJumpIfNull_Wide : Opcode := opcodeValue "JumpIfNull_Wide"

/-- Enumerator `kJumpIfNotNull`. -/
def kJumpIfNotNull : Opcode := opcodeValue "JumpIfNotNull"

/-- Enumerator `kJumpIfNotNull_Wide`. -/
def kJumpIfNotNull_Wide : Opcode := opcodeValue "JumpIfNotNull_Wide"

/-- Enumerator `kLoadConstant`. -/
def kLoadConstant : Opcode := opcodeValue "LoadConstant"

/-- Enumerator `kLoadConstant_Wide`. -/
def kLoadConstant_Wide : Opcode := opcodeValue "LoadConstant_Wide"

/-- Enumerator `kLoadConstant_Old`. -/
def kLoadConstant_Old : Opcode := opcodeValue "LoadConstant_Old"

/-- Enumerator `kCheckStack`. -/
def kCheckStack : Opcode := opcodeValue "CheckStack"

/-- Enumerator `kCheckStack_Old`. -/
def kCheckStack_Old : Opcode := opcodeValue "CheckStack_Old"

/-- Enumerator `kEntryOptional`. -/
def kEntryOptional : Opcode := opcodeValue "EntryOptional"

/-- Enumerator `kEntryOptional_Old`. -/
def kEntryOptional_Old : Opcode := opcodeValue "EntryOptional_Old"

/-- Enumerator `kFrame`. -/
def kFrame : Opcode := opcodeValue "Frame"

/-- Enumerator `kFrame_Wide`. -/
def kFrame_Wide : Opcode := opcodeValue "Frame_Wide"

/-- Enumerator `kFrame_Old`. -/
def kFrame_Old : Opcode := opcodeValue "Frame_Old"

/-- Enumerator `kSetFrame`. -/
def kSetFrame : Opcode := opcodeValue "SetFrame"

/-- Enumerator `kSetFrame_Old`. -/
def kSetFrame_Old : Opcode := opcodeValue "SetFrame_Old"

/-- Enumerator `kDirectCall_Old`. -/
def kDirectCall_Old : Opcode := opcodeValue "DirectCall_Old"

/-- Enumerator `kInterfaceCall_Old`. -/
def kInterfaceCall_Old : Opcode := opcodeValue "InterfaceCall_Old"

/-- Enumerator `kUncheckedInterfaceCall_Old`. -/
def kUncheckedInterfaceCall_Old : Opcode := opcodeValue "UncheckedInterfaceCall_Old"

/-- Enumerator `kDynamicCall_Old`. -/
def kDynamicCall_Old : Opcode := opcodeValue "DynamicCall_Old"

/-- Enumerator `kNativeCall`. -/
def kNativeCall : Opcode := opcodeValue "NativeCall"

/-- Enumerator `kNativeCall_Wide`. -/
def kNativeCall_Wide : Opcode := opcodeValue "NativeCall_Wide"

/-- Enumerator `kNativeCall_Old`. -/
def kNativeCall_Old : Opcode := opcodeValue "NativeCall_Old"

/-- Enumerator `kDirectCall`. -/
def kDirectCall : Opcode := opcodeValue "DirectCall"

/-- Enumerator `kInterfaceCall`. -/
def kInterfaceCall : Opcode := opcodeValue "InterfaceCall"

/-- Enumerator `kUncheckedInterfaceCall`. -/
def kUncheckedInterfaceCall : Opcode := opcodeValue "UncheckedInterfaceCall"

/-- Enumerator `kDynamicCall`. -/
def kDynamicCall : Opcode := opcodeValue "DynamicCall"

/-- Enumerator `kReturnTOS`. -/
def kReturnTOS : Opcode := opcodeValue "ReturnTOS"

/-- Enumerator `kDirectCall_Wide`. -/
def kDirectCall_Wide : Opcode := opcodeValue "DirectCall_Wide"

/-- Enumerator `kInterfaceCall_Wide`. -/
def kInterfaceCall_Wide : Opcode := opcodeValue "InterfaceCall_Wide"

/-- Enumerator `kUncheckedInterfaceCall_Wide`. -/
def kUncheckedInterfaceCall_Wide : Opcode := opcodeValue "UncheckedInterfaceCall_Wide"

/-- Enumerator `kDynamicCall_Wide`. -/
def kDynamicCall_Wide : Opcode := opcodeValue "DynamicCall_Wide"

/-! ## class KernelBytecode: classification of opcodes -/

/-- Function `IsJumpOpcode`: the `switch` on `DecodeOpcode(instr)`, `true` on the listed
cases and `false` by default. -/
def IsJumpOpcode (mem : Memory) (instr : Int) : Bool :=
  List.contains
    [kJump_Old, kJumpIfNoAsserts_Old, kJumpIfNotZeroTypeArgs_Old, kJumpIfEqStrict_Old,
      kJumpIfNeStrict_Old, kJumpIfTrue_Old, kJumpIfFalse_Old, kJumpIfNull_Old,
      kJumpIfNotNull_Old, kJump, kJump_Wide, kJumpIfNoAsserts, kJumpIfNoAsserts_Wide,
      kJumpIfNotZeroTypeArgs, kJumpIfNotZeroTypeArgs_Wide, kJumpIfEqStrict,
      kJumpIfEqStrict_Wide, kJumpIfNeStrict, kJumpIfNeStrict_Wide, kJumpIfTrue,
      kJumpIfTrue_Wide, kJumpIfFalse, kJumpIfFalse_Wide, kJumpIfNull, kJumpIfNull_Wide,
      kJumpIfNotNull, kJumpIfNotNull_Wide]
    (DecodeOpcode mem instr)

/-- Function `IsLoadConstantOpcode`: the `switch` on `DecodeOpcode(instr)`, `true` on the listed
cases and `false` by default. -/
def IsLoadConstantOpcode (mem : Memory) (instr : Int) : Bool :=
  List.contains
    [kLoadConstant, kLoadConstant_Wide, kLoadConstant_Old]
    (DecodeOpcode mem instr)

/-- Function `IsCheckStackOpcode`: the `switch` on `DecodeOpcode(instr)`, `true` on the listed
cases and `false` by default. -/
def IsCheckStackOpcode (mem : Memory) (instr : Int) : Bool :=
  List.contains
    [kCheckStack, kCheckStack_Old]
    (DecodeOpcode mem instr)

/-- Function `IsEntryOptionalOpcode`: the `switch` on `DecodeOpcode(instr)`, `true` on the listed
cases and `false` by default. -/
def IsEntryOptionalOpcode (mem : Memory) (instr : Int) : Bool :=
  List.contains
    [kEntryOptional, kEntryOptional_Old]
    (DecodeOpcode mem instr)

/-- Function `IsFrameOpcode`: the `switch` on `DecodeOpcode(instr)`, `true` on the listed
cases and `false` by default. -/
def IsFrameOpcode (mem : Memory) (instr : Int) : Bool :=
  List.contains
    [kFrame, kFrame_Wide, kFrame_Old]
    (DecodeOpcode mem instr)

/-- Function `IsSetFrameOpcode`: the `switch` on `DecodeOpcode(instr)`, `true` on the listed
cases and `false` by default. -/
def IsSetFrameOpcode (mem : Memory) (instr : Int) : Bool :=
  List.contains
    [kSetFrame, kSetFrame_Old]
    (DecodeOpcode mem instr)

/-- Function `IsCallOpcode_Old`: the `switch` on `DecodeOpcode(instr)`, `true` on the listed
cases and `false` by default. -/
def IsCallOpcode_Old (mem : Memory) (instr : Int) : Bool :=
  List.contains
    [kDirectCall_Old, kInterfaceCall_Old, kUncheckedInterfaceCall_Old, kDynamicCall_Old]
    (DecodeOpcode mem instr)

/-- Function `IsNativeCallOpcode`: the `switch` on `DecodeOpcode(instr)`, `true` on the listed
cases and `false` by default. -/
def IsNativeCallOpcode (mem : Memory) (instr : Int) : Bool :=
  List.contains
    [kNativeCall, kNativeCall_Wide, kNativeCall_Old]
    (DecodeOpcode mem instr)

/-- Function `IsDebugBreakCheckedOpcode`: the `switch` on `DecodeOpcode(instr)`, `true` on the listed
cases and `false` by default. -/
def IsDebugBreakCheckedOpcode (mem : Memory) (instr : Int) : Bool :=
  List.contains
    [kCheckStack, kDirectCall, kInterfaceCall, kUncheckedInterfaceCall, kDynamicCall,
      kReturnTOS]
    (DecodeOpcode mem instr)

/-! ## class KernelBytecode: argument counts at return addresses -/

/-- Constant `kNativeCallToGrowableListArgc`. -/
def kNativeCallToGrowableListArgc : KBCInstr := 2

/-- Modelled from the spec: the macro `ASSERT` of `platform/assert.h`, which is not
part of this header. A failed assertion is fatal in a debug build (`none`) and the
check is compiled out in a release build. -/
def ASSERT (debug : Bool) (cond : Bool) : Option Unit :=
  if debug && !cond then none else some ()

/-- Function `DecodeArgc_Old`; `none` when an assertion fails in a debug build. -/
def DecodeArgc_Old (debug : Bool) (mem : Memory) (ret_addr : Int) : Option KBCInstr :=
  let kOldInstructionSize : Int := 4
  let call := ret_addr - kOldInstructionSize
  (ASSERT debug (IsOld mem call)).bind fun _ =>
    if DecodeOpcode mem call = kNativeCall_Old then
      some kNativeCallToGrowableListArgc
    else
      (ASSERT debug (IsCallOpcode_Old mem call)).bind fun _ =>
        some (DecodeA mem call)

/-- Function `DecodeArgc`: `ret_addr[-1]`. -/
def DecodeArgc (mem : Memory) (ret_addr : Int) : KBCInstr := mem (ret_addr + -1)

/-- Entry of the bytecode list for the opcode `op`. -/
def entryOf (op : Opcode) : Option BytecodeEntry := KERNEL_BYTECODES_LIST.get? op

/-- Case labels, by name, of the switches of `IsJumpOpcode`, `IsLoadConstantOpcode`,
`IsCheckStackOpcode`, `IsEntryOptionalOpcode`, `IsFrameOpcode`, `IsSetFrameOpcode` and
`IsNativeCallOpcode`, in this order. -/
def classifierLabels : List (List String) :=
   [["Jump_Old", "JumpIfNoAsserts_Old", "JumpIfNotZeroTypeArgs_Old", "JumpIfEqStrict_Old",
      "JumpIfNeStrict_Old", "JumpIfTrue_Old", "JumpIfFalse_Old", "JumpIfNull_Old",
      "JumpIfNotNull_Old", "Jump", "Jump_Wide", "JumpIfNoAsserts", "JumpIfNoAsserts_Wide",
      "JumpIfNotZeroTypeArgs", "JumpIfNotZeroTypeArgs_Wide", "JumpIfEqStrict",
      "JumpIfEqStrict_Wide", "JumpIfNeStrict", "JumpIfNeStrict_Wide", "JumpIfTrue",
      "JumpIfTrue_Wide", "JumpIfFalse", "JumpIfFalse_Wide", "JumpIfNull", "JumpIfNull_Wide",
      "JumpIfNotNull", "JumpIfNotNull_Wide"],
    ["LoadConstant", "LoadConstant_Wide", "LoadConstant_Old"],
    ["CheckStack", "CheckStack_Old"],
    ["EntryOptional", "EntryOptional_Old"],
    ["Frame", "Frame_Wide", "Frame_Old"],
    ["SetFrame", "SetFrame_Old"],
    ["NativeCall", "NativeCall_Wide", "NativeCall_Old"]]

/-- Enumerator `kReturnTOS_Old`. -/
def kReturnTOS_Old : Opcode := opcodeValue "ReturnTOS_Old"

/-! ## class KernelBytecode: constants, names and program counters -/

/-- Constant `kMagicValue`, magic value of bytecode files. -/
def kMagicValue : Int := 0x44424332

/-- Constant `kMinSupportedBytecodeFormatVersion`. -/
def kMinSupportedBytecodeFormatVersion : Int := 3

/-- Constant `kMaxSupportedBytecodeFormatVersion`. -/
def kMaxSupportedBytecodeFormatVersion : Int := 9

/-- Function `NameOf`: `names[op]` in the array of the stringified names of the
bytecode list; `none` for an index outside the array. -/
def NameOf (op : Opcode) : Option String :=
  (KERNEL_BYTECODES_LIST.map BytecodeEntry.name).get? op

/-- Conversion of an integer to `intptr_t` of `w` bits (`w` is 32 or 64): the low
`w` bits read in two's complement. -/
def toIntptr (w : Nat) (x : Int) : Int := toSigned w (x % 2 ^ w).toNat

/-- Conversion of an integer to `uint32_t`. -/
def intToUint32 (x : Int) : Nat := (x % 2 ^ 32).toNat

/-- Function `BytecodePcToOffset` for `intptr_t` of `w` bits. The sum is computed in
`uint32_t` (the `int` operand is converted to unsigned) and then converted to
`intptr_t`. -/
def BytecodePcToOffset (w : Nat) (pc : Nat) (is_return_address : Bool) : Int :=
  toIntptr w (toUint32 (toUint32 pc + toUint32 (if is_return_address then 1 else 0)))

/-- Function `OffsetToBytecodePc` for `intptr_t` of `w` bits. The difference is computed
in `intptr_t` and then converted to `uint32_t`. -/
def OffsetToBytecodePc (w : Nat) (offset : Int) (is_return_address : Bool) : Nat :=
  intToUint32 (toIntptr w (toIntptr w offset - (if is_return_address then 1 else 0)))

/-! ## Instruction lengths -/

/-- Byte length of an instruction by kind and operand form: `kOldInstructionSize` for
an old instruction, and for the others the length of the operand layout drawn in the
ENCODING comment of the header (`none` where the comment draws no such layout, and for
reserved slots). -/
def layoutLength : BytecodeKind → OperandForm → Option Nat
  | .OLD, _ => some 4
  | .ORDN, .zero => some 1
  | .ORDN, .A => some 2
  | .ORDN, .D => some 2
  | .ORDN, .X => some 2
  | .ORDN, .T => some 2
  | .ORDN, .A_E => some 3
  | .ORDN, .A_Y => some 3
  | .ORDN, .D_F => some 3
  | .ORDN, .A_B_C => some 4
  | .WIDE, .D => some 5
  | .WIDE, .X => some 5
  | .WIDE, .T => some 4
  | .WIDE, .A_E => some 6
  | .WIDE, .A_Y => some 6
  | .WIDE, .D_F => some 6
  | _, _ => none

/-- The derivation rule of section 4.2 of the specification, as it is worded: old
instructions 4 bytes; compact ones 1 (form 0), 2 (A, D, X, T) or 4 (A_B_C) bytes; wide
ones 5 (D, X, T, A_E, A_Y) or 6 (D_F) bytes. -/
def specSizeRule : BytecodeKind → OperandForm → Option Nat
  | .OLD, _ => some 4
  | .ORDN, .zero => some 1
  | .ORDN, .A => some 2
  | .ORDN, .D => some 2
  | .ORDN, .X => some 2
  | .ORDN, .T => some 2
  | .ORDN, .A_B_C => some 4
  | .WIDE, .D => some 5
  | .WIDE, .X => some 5
  | .WIDE, .T => some 5
  | .WIDE, .A_E => some 5
  | .WIDE, .A_Y => some 5
  | .WIDE, .D_F => some 6
  | _, _ => none

/-- Modelled from the spec: the array `kInstructionSize`, declared in the class and
defined in another translation unit. The entry of every opcode below `kTrap` is 4
(invariant 1: an old instruction is 4 bytes long regardless of its declared form); the
entry of any other opcode is the length that the derivation rule of section 4.2 names
for its kind and operand form, and `none` where the rule names no length (reserved
slots, and the compact forms A_E, A_Y and D_F). The lengths of the layouts drawn in the
header are `layoutLength`, which differs from this table on the wide forms T, A_E and
A_Y. -/
def kInstructionSize (op : Opcode) : Option Nat :=
  if op < kTrap then some 4 else (entryOf op).bind fun e => specSizeRule e.kind e.encoding

/-! ## Byte indices read by the decoders -/

/-- Indices `i` of the bytes `bc[i]` that `DecodeA` reads. -/
def DecodeA_reads : List Nat := [1]

/-- Indices of the bytes that `DecodeB` reads. -/
def DecodeB_reads : List Nat := [2]

/-- Indices of the bytes that `DecodeC` reads. -/
def DecodeC_reads : List Nat := [3]

/-- Indices of the bytes that `DecodeD` and `DecodeX` read in an instruction with
opcode `op`: the opcode byte and the bytes of the branch that `IsOld` and `IsWide`
select. -/
def DecodeD_reads (op : Opcode) : List Nat :=
  if op < kTrap then [0, 2, 3]
  else if (op &&& kWideModifier) != 0 then [0, 1, 2, 3, 4]
  else [0, 1]

/-- Indices of the bytes that `DecodeT` reads in an instruction with opcode `op`. -/
def DecodeT_reads (op : Opcode) : List Nat :=
  if op < kTrap then [0, 1, 2, 3]
  else if (op &&& kWideModifier) != 0 then [0, 1, 2, 3]
  else [0, 1]

/-- Indices of the bytes that `DecodeE` and `DecodeY` read in an instruction with
opcode `op`. -/
def DecodeE_reads (op : Opcode) : List Nat :=
  if op < kTrap then [0, 2, 3]
  else if (op &&& kWideModifier) != 0 then [0, 2, 3, 4, 5]
  else [0, 2]

/-- Indices of the bytes that `DecodeF` reads in an instruction with opcode `op`. -/
def DecodeF_reads (op : Opcode) : List Nat :=
  if op < kTrap then [0, 1]
  else if (op &&& kWideModifier) != 0 then [0, 5]
  else [0, 2]

/-- The byte indices read by the field decoders that apply to the operand form `form`,
in an instruction with opcode `op`. -/
def formReads (form : OperandForm) (op : Opcode) : List Nat :=
  match form with
  | .zero => []
  | .A => DecodeA_reads
  | .D => DecodeD_reads op
  | .X => DecodeD_reads op
  | .T => DecodeT_reads op
  | .A_D => DecodeA_reads ++ DecodeD_reads op
  | .A_X => DecodeA_reads ++ DecodeD_reads op
  | .A_E => DecodeA_reads ++ DecodeE_reads op
  | .A_Y => DecodeA_reads ++ DecodeE_reads op
  | .D_F => DecodeD_reads op ++ DecodeF_reads op
  | .A_B_C => DecodeA_reads ++ DecodeB_reads ++ DecodeC_reads

/-- Layout of a straight-line sequence: the instructions with opcodes `ops` lie back
to back from address `bc`, the one with opcode `op` occupying `kInstructionSize[op]`
bytes. -/
def InstructionsAt (kInstructionSize : Opcode → Int) (mem : Memory) :
    Int → List Opcode → Bool
  | _, [] => true
  | bc, op :: ops =>
    decide (DecodeOpcode mem bc = op) &&
      InstructionsAt kInstructionSize mem (bc + kInstructionSize op) ops

/-! ## Auxiliary facts -/

theorem kTrap_eq : kTrap = 85 := by decide

theorem byteAt_lt (mem : Memory) (bc i : Int) : byteAt mem bc i < 256 :=
  (mem (bc + i)).isLt

theorem IsOld_iff (mem : Memory) (bc : Int) :
    IsOld mem bc = true ↔ byteAt mem bc 0 < kTrap := by
  simp [IsOld, DecodeOpcode]

theorem IsWide_iff (mem : Memory) (bc : Int) :
    IsWide mem bc = true ↔ byteAt mem bc 0 % 2 = 1 := by
  simp [IsWide, DecodeOpcode, kWideModifier]

theorem lor_mul_eq_add (x y k : Nat) (h : x < 2 ^ k) :
    x ||| (y * 2 ^ k) = x + y * 2 ^ k := by
  rw [Nat.lor_comm, Nat.mul_comm, ← Nat.mul_add_lt_is_or h, Nat.add_comm]

theorem le16_eq (a b : Nat) (ha : a < 256) (hb : b < 256) :
    toUint16 a ||| (toUint16 b <<< 8) = a + 256 * b := by
  have h1 : a % 2 ^ 16 = a := Nat.mod_eq_of_lt (by omega)
  have h2 : b % 2 ^ 16 = b := Nat.mod_eq_of_lt (by omega)
  simp only [toUint16, Nat.shiftLeft_eq, h1, h2]
  rw [lor_mul_eq_add a b 8 (by omega)]
  omega

theorem le32_eq (a b c d : Nat) (ha : a < 256) (hb : b < 256) (hc : c < 256)
    (hd : d < 256) :
    toUint32 a ||| toUint32 (toUint32 b <<< 8) ||| toUint32 (toUint32 c <<< 16) |||
      toUint32 (toUint32 d <<< 24) = a + 2 ^ 8 * b + 2 ^ 16 * c + 2 ^ 24 * d := by
  have h1 : a % 2 ^ 32 = a := Nat.mod_eq_of_lt (by omega)
  have h2 : b % 2 ^ 32 = b := Nat.mod_eq_of_lt (by omega)
  have h3 : c % 2 ^ 32 = c := Nat.mod_eq_of_lt (by omega)
  have h4 : d % 2 ^ 32 = d := Nat.mod_eq_of_lt (by omega)
  have h5 : b * 2 ^ 8 % 2 ^ 32 = b * 2 ^ 8 := Nat.mod_eq_of_lt (by omega)
  have h6 : c * 2 ^ 16 % 2 ^ 32 = c * 2 ^ 16 := Nat.mod_eq_of_lt (by omega)
  have h7 : d * 2 ^ 24 % 2 ^ 32 = d * 2 ^ 24 := Nat.mod_eq_of_lt (by omega)
  simp only [toUint32, Nat.shiftLeft_eq, h1, h2, h3, h4, h5, h6, h7]
  rw [lor_mul_eq_add a b 8 (by omega), lor_mul_eq_add _ c 16 (by omega),
    lor_mul_eq_add _ d 24 (by omega)]
  omega

theorem word24_eq (a b c : Nat) (ha : a < 256) (hb : b < 256) (hc : c < 256) :
    toUint32 (toUint32 a <<< 8) ||| toUint32 (toUint32 b <<< 16) |||
      toUint32 (toUint32 c <<< 24) = a * 2 ^ 8 + b * 2 ^ 16 + c * 2 ^ 24 := by
  have h1 : a % 2 ^ 32 = a := Nat.mod_eq_of_lt (by omega)
  have h2 : b % 2 ^ 32 = b := Nat.mod_eq_of_lt (by omega)
  have h3 : c % 2 ^ 32 = c := Nat.mod_eq_of_lt (by omega)
  have h5 : a * 2 ^ 8 % 2 ^ 32 = a * 2 ^ 8 := Nat.mod_eq_of_lt (by omega)
  have h6 : b * 2 ^ 16 % 2 ^ 32 = b * 2 ^ 16 := Nat.mod_eq_of_lt (by omega)
  have h7 : c * 2 ^ 24 % 2 ^ 32 = c * 2 ^ 24 := Nat.mod_eq_of_lt (by omega)
  simp only [toUint32, Nat.shiftLeft_eq, h1, h2, h3, h5, h6, h7]
  rw [lor_mul_eq_add _ b 16 (by omega), lor_mul_eq_add _ c 24 (by omega)]

theorem toUint32_of_lt (n : Nat) (h : n < 2 ^ 32) : toUint32 n = n :=
  Nat.mod_eq_of_lt h

/-! ## Operand decoders -/

/-- C1: `DecodeD` is `bc[2] + 256*bc[3]` for an old opcode (`bc[0] < kTrap`), the
little-endian 32-bit value of `bc[1..4]` for a wide one (`bc[0] >= kTrap`, least
significant bit set), and `bc[1]` otherwise. -/
theorem DecodeD_eq (mem : Memory) (bc : Int) :
    DecodeD mem bc =
      if byteAt mem bc 0 < kTrap then byteAt mem bc 2 + 256 * byteAt mem bc 3
      else if byteAt mem bc 0 % 2 = 1 then
        byteAt mem bc 1 + 2 ^ 8 * byteAt mem bc 2 + 2 ^ 16 * byteAt mem bc 3 +
          2 ^ 24 * byteAt mem bc 4
      else byteAt mem bc 1 := by
  have b1 := byteAt_lt mem bc 1
  have b2 := byteAt_lt mem bc 2
  have b3 := byteAt_lt mem bc 3
  have b4 := byteAt_lt mem bc 4
  unfold DecodeD
  simp only [IsOld_iff, IsWide_iff]
  split
  · rw [le16_eq _ _ b2 b3]
    exact toUint32_of_lt _ (by omega)
  · split
    · exact le32_eq _ _ _ _ b1 b2 b3 b4
    · exact toUint32_of_lt _ (by omega)

/-- C3: `DecodeE` is `bc[2] + 256*bc[3]` for an old opcode, the little-endian 32-bit
value of `bc[2..5]` for a wide one, and `bc[2]` for a compact one. -/
theorem DecodeE_eq (mem : Memory) (bc : Int) :
    DecodeE mem bc =
      if byteAt mem bc 0 < kTrap then byteAt mem bc 2 + 256 * byteAt mem bc 3
      else if byteAt mem bc 0 % 2 = 1 then
        byteAt mem bc 2 + 2 ^ 8 * byteAt mem bc 3 + 2 ^ 16 * byteAt mem bc 4 +
          2 ^ 24 * byteAt mem bc 5
      else byteAt mem bc 2 := by
  have b2 := byteAt_lt mem bc 2
  have b3 := byteAt_lt mem bc 3
  have b4 := byteAt_lt mem bc 4
  have b5 := byteAt_lt mem bc 5
  unfold DecodeE
  simp only [IsOld_iff, IsWide_iff]
  split
  · rw [le16_eq _ _ b2 b3]
    exact toUint32_of_lt _ (by omega)
  · split
    · exact le32_eq _ _ _ _ b2 b3 b4 b5
    · exact toUint32_of_lt _ (by omega)

/-- C7: `DecodeF` is `bc[1]` for an old opcode, `bc[5]` for a wide one and `bc[2]`
for a compact one. -/
theorem DecodeF_eq (mem : Memory) (bc : Int) :
    DecodeF mem bc =
      if byteAt mem bc 0 < kTrap then mem (bc + 1)
      else if byteAt mem bc 0 % 2 = 1 then mem (bc + 5)
      else mem (bc + 2) := by
  unfold DecodeF
  simp only [IsOld_iff, IsWide_iff]

/-! ## Signed operands -/

theorem toInt8_spec (n : Nat) :
    -(2 : Int) ^ 7 ≤ toInt8 n ∧ toInt8 n < (2 : Int) ^ 7 ∧
      toInt8 n ≡ (n : Int) [ZMOD (2 : Int) ^ 8] := by
  unfold toInt8 toSigned Int.ModEq
  split <;> refine ⟨?_, ?_, ?_⟩ <;> omega

theorem toInt16_spec (n : Nat) :
    -(2 : Int) ^ 15 ≤ toInt16 n ∧ toInt16 n < (2 : Int) ^ 15 ∧
      toInt16 n ≡ (n : Int) [ZMOD (2 : Int) ^ 16] := by
  unfold toInt16 toSigned Int.ModEq
  split <;> refine ⟨?_, ?_, ?_⟩ <;> omega

theorem toInt32_spec (n : Nat) :
    -(2 : Int) ^ 31 ≤ toInt32 n ∧ toInt32 n < (2 : Int) ^ 31 ∧
      toInt32 n ≡ (n : Int) [ZMOD (2 : Int) ^ 32] := by
  unfold toInt32 toSigned Int.ModEq
  split <;> refine ⟨?_, ?_, ?_⟩ <;> omega

/-- C2: `DecodeX` is the two's-complement reading of the bits `DecodeD` reads: with
`w` the operand width (16 old, 32 wide, 8 compact) it lies in `[-2^(w-1), 2^(w-1))`
and is congruent to `DecodeD` modulo `2^w`. -/
theorem DecodeX_signed_DecodeD (mem : Memory) (bc : Int) :
    -(2 : Int) ^ ((if byteAt mem bc 0 < kTrap then 16
        else if byteAt mem bc 0 % 2 = 1 then 32 else 8) - 1) ≤ DecodeX mem bc ∧
      DecodeX mem bc < (2 : Int) ^ ((if byteAt mem bc 0 < kTrap then 16
        else if byteAt mem bc 0 % 2 = 1 then 32 else 8) - 1) ∧
      DecodeX mem bc ≡ (DecodeD mem bc : Int) [ZMOD (2 : Int) ^ (if byteAt mem bc 0 < kTrap
        then 16 else if byteAt mem bc 0 % 2 = 1 then 32 else 8)] := by
  have b1 := byteAt_lt mem bc 1
  have b2 := byteAt_lt mem bc 2
  have b3 := byteAt_lt mem bc 3
  have b4 := byteAt_lt mem bc 4
  unfold DecodeX DecodeD
  simp only [IsOld_iff, IsWide_iff]
  split
  · rw [toUint32_of_lt _ (by rw [le16_eq _ _ b2 b3]; omega)]
    exact toInt16_spec _
  · split
    · exact toInt32_spec _
    · rw [toUint32_of_lt _ (by omega)]
      exact toInt8_spec _

/-- C4: `DecodeY` is the two's-complement reading of the bits `DecodeE` reads: with
`w` the operand width (16 old, 32 wide, 8 compact) it lies in `[-2^(w-1), 2^(w-1))`
and is congruent to `DecodeE` modulo `2^w`. -/
theorem DecodeY_signed_DecodeE (mem : Memory) (bc : Int) :
    -(2 : Int) ^ ((if byteAt mem bc 0 < kTrap then 16
        else if byteAt mem bc 0 % 2 = 1 then 32 else 8) - 1) ≤ DecodeY mem bc ∧
      DecodeY mem bc < (2 : Int) ^ ((if byteAt mem bc 0 < kTrap then 16
        else if byteAt mem bc 0 % 2 = 1 then 32 else 8) - 1) ∧
      DecodeY mem bc ≡ (DecodeE mem bc : Int) [ZMOD (2 : Int) ^ (if byteAt mem bc 0 < kTrap
        then 16 else if byteAt mem bc 0 % 2 = 1 then 32 else 8)] := by
  have b2 := byteAt_lt mem bc 2
  have b3 := byteAt_lt mem bc 3
  unfold DecodeY DecodeE
  simp only [IsOld_iff, IsWide_iff]
  split
  · rw [toUint32_of_lt _ (by rw [le16_eq _ _ b2 b3]; omega)]
    exact toInt16_spec _
  · split
    · exact toInt32_spec _
    · rw [toUint32_of_lt _ (by omega)]
      exact toInt8_spec _

/-! ## Jump targets -/

theorem DecodeT_old (mem : Memory) (bc : Int) (h : byteAt mem bc 0 < kTrap) :
    DecodeT mem bc =
      toInt32 (byteAt mem bc 1 * 2 ^ 8 + byteAt mem bc 2 * 2 ^ 16 +
        byteAt mem bc 3 * 2 ^ 24) / 2 ^ 6 := by
  unfold DecodeT
  rw [if_pos ((IsOld_iff mem bc).2 h),
    word24_eq _ _ _ (byteAt_lt mem bc 1) (byteAt_lt mem bc 2) (byteAt_lt mem bc 3),
    Int.shiftRight_eq_div_pow]
  norm_num

theorem DecodeT_wide (mem : Memory) (bc : Int) (h : ¬ byteAt mem bc 0 < kTrap)
    (hw : byteAt mem bc 0 % 2 = 1) :
    DecodeT mem bc =
      toInt32 (byteAt mem bc 1 * 2 ^ 8 + byteAt mem bc 2 * 2 ^ 16 +
        byteAt mem bc 3 * 2 ^ 24) / 2 ^ 8 := by
  unfold DecodeT
  rw [if_neg (fun c => h ((IsOld_iff mem bc).1 c)), if_pos ((IsWide_iff mem bc).2 hw),
    word24_eq _ _ _ (byteAt_lt mem bc 1) (byteAt_lt mem bc 2) (byteAt_lt mem bc 3),
    Int.shiftRight_eq_div_pow]
  norm_num

theorem DecodeT_compact (mem : Memory) (bc : Int) (h : ¬ byteAt mem bc 0 < kTrap)
    (hw : ¬ byteAt mem bc 0 % 2 = 1) :
    DecodeT mem bc = toInt8 (byteAt mem bc 1) := by
  unfold DecodeT
  rw [if_neg (fun c => h ((IsOld_iff mem bc).1 c)),
    if_neg (fun c => hw ((IsWide_iff mem bc).1 c))]

theorem toInt32_word24 (a b c : Nat) (ha : a < 256) (hb : b < 256) (hc : c < 256) :
    toInt32 (a * 2 ^ 8 + b * 2 ^ 16 + c * 2 ^ 24) =
      if (a : Int) * 2 ^ 8 + b * 2 ^ 16 + c * 2 ^ 24 < 2 ^ 31 then
        (a : Int) * 2 ^ 8 + b * 2 ^ 16 + c * 2 ^ 24
      else (a : Int) * 2 ^ 8 + b * 2 ^ 16 + c * 2 ^ 24 - 2 ^ 32 := by
  unfold toInt32 toSigned
  split <;> split <;> omega

/-- C5: with `W` the signed 32-bit value of the word
`bc[1]*2^8 + bc[2]*2^16 + bc[3]*2^24`, `DecodeT` is `floor(W / 2^6)` for an old
opcode; `floor(W / 2^8)`, which is the signed 24-bit little-endian value of
`bc[1..3]` and lies in `[-2^23, 2^23)`, for a wide opcode; and the sign-extended byte
`bc[1]`, in `[-128, 127]`, for a compact opcode. -/
theorem DecodeT_eq (mem : Memory) (bc : Int) :
    if byteAt mem bc 0 < kTrap then
      DecodeT mem bc =
        Int.fdiv
          (if (byteAt mem bc 1 : Int) * 2 ^ 8 + byteAt mem bc 2 * 2 ^ 16 +
              byteAt mem bc 3 * 2 ^ 24 < 2 ^ 31 then
            (byteAt mem bc 1 : Int) * 2 ^ 8 + byteAt mem bc 2 * 2 ^ 16 +
              byteAt mem bc 3 * 2 ^ 24
          else
            (byteAt mem bc 1 : Int) * 2 ^ 8 + byteAt mem bc 2 * 2 ^ 16 +
              byteAt mem bc 3 * 2 ^ 24 - 2 ^ 32) (2 ^ 6)
    else if byteAt mem bc 0 % 2 = 1 then
      DecodeT mem bc =
        Int.fdiv
          (if (byteAt mem bc 1 : Int) * 2 ^ 8 + byteAt mem bc 2 * 2 ^ 16 +
              byteAt mem bc 3 * 2 ^ 24 < 2 ^ 31 then
            (byteAt mem bc 1 : Int) * 2 ^ 8 + byteAt mem bc 2 * 2 ^ 16 +
              byteAt mem bc 3 * 2 ^ 24
          else
            (byteAt mem bc 1 : Int) * 2 ^ 8 + byteAt mem bc 2 * 2 ^ 16 +
              byteAt mem bc 3 * 2 ^ 24 - 2 ^ 32) (2 ^ 8) ∧
      DecodeT mem bc =
        (if (byteAt mem bc 1 : Int) + 2 ^ 8 * byteAt mem bc 2 + 2 ^ 16 * byteAt mem bc 3
            < 2 ^ 23 then
          (byteAt mem bc 1 : Int) + 2 ^ 8 * byteAt mem bc 2 + 2 ^ 16 * byteAt mem bc 3
        else
          (byteAt mem bc 1 : Int) + 2 ^ 8 * byteAt mem bc 2 + 2 ^ 16 * byteAt mem bc 3
            - 2 ^ 24) ∧
      -(2 : Int) ^ 23 ≤ DecodeT mem bc ∧ DecodeT mem bc < (2 : Int) ^ 23
    else
      DecodeT mem bc =
        (if byteAt mem bc 1 < 128 then (byteAt mem bc 1 : Int)
          else (byteAt mem bc 1 : Int) - 256) ∧
      -128 ≤ DecodeT mem bc ∧ DecodeT mem bc ≤ 127 := by
  have b1 := byteAt_lt mem bc 1
  have b2 := byteAt_lt mem bc 2
  have b3 := byteAt_lt mem bc 3
  split
  · next h =>
    rw [DecodeT_old mem bc h, toInt32_word24 _ _ _ b1 b2 b3,
      Int.fdiv_eq_ediv _ (by norm_num)]
  · next h =>
    split
    · next hw =>
      rw [DecodeT_wide mem bc h hw, toInt32_word24 _ _ _ b1 b2 b3,
        Int.fdiv_eq_ediv _ (by norm_num)]
      refine ⟨rfl, ?_, ?_, ?_⟩ <;> split <;> omega
    · next hw =>
      rw [DecodeT_compact mem bc h hw]
      unfold toInt8 toSigned
      refine ⟨?_, ?_, ?_⟩ <;> split <;> omega

/-- C6: for the same payload bytes `bc[1..3]`, `DecodeT` of an instruction with an old
opcode is four times `DecodeT` of an instruction with a wide opcode; for the payload
`0x00, 0x01, 0x00` the old result is 1024 and the wide result is 256. -/
theorem DecodeT_old_eq_four_mul_wide (memL memV : Memory) (l v : Int)
    (hL : byteAt memL l 0 < kTrap)
    (hV : kTrap ≤ byteAt memV v 0) (hW : byteAt memV v 0 % 2 = 1)
    (h1 : byteAt memL l 1 = byteAt memV v 1) (h2 : byteAt memL l 2 = byteAt memV v 2)
    (h3 : byteAt memL l 3 = byteAt memV v 3) :
    DecodeT memL l = 4 * DecodeT memV v ∧
      (byteAt memL l 1 = 0 → byteAt memL l 2 = 1 → byteAt memL l 3 = 0 →
        DecodeT memL l = 1024 ∧ DecodeT memV v = 256) := by
  have b1 := byteAt_lt memV v 1
  have b2 := byteAt_lt memV v 2
  have b3 := byteAt_lt memV v 3
  rw [DecodeT_old memL l hL, DecodeT_wide memV v (Nat.not_lt.mpr hV) hW, h1, h2, h3,
    toInt32_word24 _ _ _ b1 b2 b3]
  refine ⟨?_, ?_⟩
  · split <;> omega
  · intro e1 e2 e3
    rw [e1, e2, e3]
    decide

theorem DecodeT_old_eq_four_mul_wide_witness :
    byteAt (memoryOf [31, 0, 1, 0]) 0 0 < kTrap ∧
      kTrap ≤ byteAt (memoryOf [159, 0, 1, 0]) 0 0 ∧
      byteAt (memoryOf [159, 0, 1, 0]) 0 0 % 2 = 1 ∧
      DecodeT (memoryOf [31, 0, 1, 0]) 0 = 4 * DecodeT (memoryOf [159, 0, 1, 0]) 0 ∧
      DecodeT (memoryOf [31, 0, 1, 0]) 0 = 1024 ∧
      DecodeT (memoryOf [159, 0, 1, 0]) 0 = 256 :=
  have h := DecodeT_old_eq_four_mul_wide (memoryOf [31, 0, 1, 0]) (memoryOf [159, 0, 1, 0])
    0 0 (by decide) (by decide) (by decide) (by decide) (by decide) (by decide)
  ⟨by decide, by decide, by decide, h.1, h.2 (by decide) (by decide) (by decide)⟩

/-! ## Opcode and byte operands -/

/-- C8: whatever the opcode, `DecodeOpcode` is the opcode numbered `bc[0]`,
`DecodeA` is `bc[1]`, `DecodeB` is `bc[2]` and `DecodeC` is `bc[3]`; none of the four
changes when a byte at any other address is overwritten. -/
theorem DecodeOpcode_A_B_C (mem : Memory) (bc : Int) :
    DecodeOpcode mem bc = (mem bc).val ∧ DecodeA mem bc = mem (bc + 1) ∧
      DecodeB mem bc = mem (bc + 2) ∧ DecodeC mem bc = mem (bc + 3) ∧
      ∀ (a : Int) (x : KBCInstr),
        (a ≠ bc → DecodeOpcode (Function.update mem a x) bc = DecodeOpcode mem bc) ∧
        (a ≠ bc + 1 → DecodeA (Function.update mem a x) bc = DecodeA mem bc) ∧
        (a ≠ bc + 2 → DecodeB (Function.update mem a x) bc = DecodeB mem bc) ∧
        (a ≠ bc + 3 → DecodeC (Function.update mem a x) bc = DecodeC mem bc) := by
  refine ⟨by simp [DecodeOpcode, byteAt], rfl, rfl, rfl, fun a x => ⟨?_, ?_, ?_, ?_⟩⟩
  · intro h
    have h0 : bc + 0 ≠ a := by omega
    simp only [DecodeOpcode, byteAt, Function.update_noteq h0]
  · intro h
    simp [DecodeA, Function.update_noteq (Ne.symm h)]
  · intro h
    simp [DecodeB, Function.update_noteq (Ne.symm h)]
  · intro h
    simp [DecodeC, Function.update_noteq (Ne.symm h)]

theorem DecodeOpcode_A_B_C_witness :
    DecodeOpcode (Function.update (memoryOf [90, 1, 2, 3]) 1 7) 0 =
        DecodeOpcode (memoryOf [90, 1, 2, 3]) 0 ∧
      DecodeA (Function.update (memoryOf [90, 1, 2, 3]) 0 3) 0 =
        DecodeA (memoryOf [90, 1, 2, 3]) 0 ∧
      DecodeB (Function.update (memoryOf [90, 1, 2, 3]) 0 3) 0 =
        DecodeB (memoryOf [90, 1, 2, 3]) 0 ∧
      DecodeC (Function.update (memoryOf [90, 1, 2, 3]) 0 3) 0 =
        DecodeC (memoryOf [90, 1, 2, 3]) 0 :=
  ⟨((DecodeOpcode_A_B_C (memoryOf [90, 1, 2, 3]) 0).2.2.2.2 1 7).1 (by decide),
    ((DecodeOpcode_A_B_C (memoryOf [90, 1, 2, 3]) 0).2.2.2.2 0 3).2.1 (by decide),
    ((DecodeOpcode_A_B_C (memoryOf [90, 1, 2, 3]) 0).2.2.2.2 0 3).2.2.1 (by decide),
    ((DecodeOpcode_A_B_C (memoryOf [90, 1, 2, 3]) 0).2.2.2.2 0 3).2.2.2 (by decide)⟩

/-! ## Round trip of operands -/

theorem DecodeX_eq (mem : Memory) (bc : Int) :
    DecodeX mem bc =
      if byteAt mem bc 0 < kTrap then toInt16 (byteAt mem bc 2 + 256 * byteAt mem bc 3)
      else if byteAt mem bc 0 % 2 = 1 then
        toInt32 (byteAt mem bc 1 + 2 ^ 8 * byteAt mem bc 2 + 2 ^ 16 * byteAt mem bc 3 +
          2 ^ 24 * byteAt mem bc 4)
      else toInt8 (byteAt mem bc 1) := by
  unfold DecodeX
  simp only [IsOld_iff, IsWide_iff]
  rw [le16_eq _ _ (byteAt_lt mem bc 2) (byteAt_lt mem bc 3),
    le32_eq _ _ _ _ (byteAt_lt mem bc 1) (byteAt_lt mem bc 2) (byteAt_lt mem bc 3)
      (byteAt_lt mem bc 4)]

/-- C9: operand round trip. In a compact instruction (`bc[0] >= kTrap`, low bit clear)
whose byte 1 is `v`, `0 <= v <= 255`, `DecodeD` is `v`, and if byte 1 is the
two's-complement byte of `v`, `-128 <= v <= 127`, `DecodeX` is `v`. In a wide
instruction (`bc[0] >= kTrap`, low bit set) whose bytes 1..4 are the little-endian
bytes of `v`, `0 <= v < 2^32`, `DecodeD` is `v`, and if they are the little-endian
two's-complement bytes of `v`, `-2^31 <= v < 2^31`, `DecodeX` is `v`. -/
theorem operand_round_trip (mem : Memory) (bc : Int) (hT : kTrap ≤ byteAt mem bc 0) :
    (byteAt mem bc 0 % 2 = 0 →
      (∀ v : Nat, v ≤ 255 → byteAt mem bc 1 = v → DecodeD mem bc = v) ∧
      (∀ v : Int, -128 ≤ v → v ≤ 127 → (byteAt mem bc 1 : Int) = v % 256 →
        DecodeX mem bc = v)) ∧
    (byteAt mem bc 0 % 2 = 1 →
      (∀ v : Nat, v < 2 ^ 32 →
        byteAt mem bc 1 = v % 256 → byteAt mem bc 2 = v / 2 ^ 8 % 256 →
        byteAt mem bc 3 = v / 2 ^ 16 % 256 → byteAt mem bc 4 = v / 2 ^ 24 % 256 →
        DecodeD mem bc = v) ∧
      (∀ v : Int, -(2 : Int) ^ 31 ≤ v → v < (2 : Int) ^ 31 →
        (byteAt mem bc 1 : Int) = v % 2 ^ 32 % 256 →
        (byteAt mem bc 2 : Int) = v % 2 ^ 32 / 2 ^ 8 % 256 →
        (byteAt mem bc 3 : Int) = v % 2 ^ 32 / 2 ^ 16 % 256 →
        (byteAt mem bc 4 : Int) = v % 2 ^ 32 / 2 ^ 24 % 256 →
        DecodeX mem bc = v)) := by
  have hO : ¬ byteAt mem bc 0 < kTrap := Nat.not_lt.mpr hT
  refine ⟨fun hC => ⟨?_, ?_⟩, fun hW => ⟨?_, ?_⟩⟩
  · intro v _ h1
    rw [DecodeD_eq, if_neg hO, if_neg (by omega), h1]
  · intro v hlo hhi h1
    rw [DecodeX_eq, if_neg hO, if_neg (by omega)]
    unfold toInt8 toSigned
    split <;> omega
  · intro v hv h1 h2 h3 h4
    rw [DecodeD_eq, if_neg hO, if_pos hW]
    omega
  · intro v hlo hhi h1 h2 h3 h4
    rw [DecodeX_eq, if_neg hO, if_pos hW]
    unfold toInt32 toSigned
    split <;> omega

theorem operand_round_trip_witness :
    DecodeD (memoryOf [86, 200]) 0 = 200 ∧ DecodeX (memoryOf [126, 156]) 0 = -100 ∧
      DecodeD (memoryOf [87, 0x78, 0x56, 0x34, 0x92]) 0 = 0x92345678 ∧
      DecodeX (memoryOf [127, 0xFE, 0xFF, 0xFF, 0xFF]) 0 = -2 :=
  ⟨((operand_round_trip (memoryOf [86, 200]) 0 (by decide)).1 (by decide)).1 200
      (by decide) (by decide),
    ((operand_round_trip (memoryOf [126, 156]) 0 (by decide)).1 (by decide)).2 (-100)
      (by decide) (by decide) (by decide),
    ((operand_round_trip (memoryOf [87, 0x78, 0x56, 0x34, 0x92]) 0 (by decide)).2
      (by decide)).1 0x92345678 (by decide) (by decide) (by decide) (by decide) (by decide),
    ((operand_round_trip (memoryOf [127, 0xFE, 0xFF, 0xFF, 0xFF]) 0 (by decide)).2
      (by decide)).2 (-2) (by decide) (by decide) (by decide) (by decide) (by decide)
      (by decide)⟩

/-! ## Stepping over instructions -/

theorem Next_iterate_of_InstructionsAt (kInstructionSize : Opcode → Int) (mem : Memory) :
    ∀ (ops : List Opcode) (bc : Int), InstructionsAt kInstructionSize mem bc ops = true →
      (Next kInstructionSize mem)^[ops.length] bc = bc + (ops.map kInstructionSize).sum := by
  intro ops
  induction ops with
  | nil => intro bc _; simp
  | cons op ops ih =>
    intro bc h
    simp only [InstructionsAt, Bool.and_eq_true, decide_eq_true_eq] at h
    have hn : Next kInstructionSize mem bc = bc + kInstructionSize op := by
      rw [Next, h.1]
    rw [List.length_cons, Function.iterate_succ_apply, hn, ih _ h.2, List.map_cons,
      List.sum_cons, add_assoc]

/-- C10: for every size table, `Next(bc)` is `bc + kInstructionSize[bc[0]]` and is
the same in any memory with the same opcode byte at `bc`; over `N` instructions laid
out back to back from `start`, applying `Next` `N` times gives `start` plus the sum of
the `N` instruction sizes. -/
theorem Next_straight_line (kInstructionSize : Opcode → Int) (mem : Memory) (start : Int)
    (ops : List Opcode) (h : InstructionsAt kInstructionSize mem start ops = true) :
    (∀ bc : Int, Next kInstructionSize mem bc = bc + kInstructionSize (byteAt mem bc 0)) ∧
      (∀ (mem2 : Memory) (bc : Int), mem2 bc = mem bc →
        Next kInstructionSize mem2 bc = Next kInstructionSize mem bc) ∧
      (Next kInstructionSize mem)^[ops.length] start =
        start + (ops.map kInstructionSize).sum := by
  refine ⟨fun bc => rfl, fun mem2 bc e => ?_,
    Next_iterate_of_InstructionsAt kInstructionSize mem ops start h⟩
  simp only [Next, DecodeOpcode, byteAt, add_zero, e]

theorem Next_straight_line_witness :
    InstructionsAt (fun op => if op < 85 then 4 else if op = 86 then 2 else 1)
        (memoryOf [31, 0, 1, 0, 86, 5, 85]) 0 [31, 86, 85] = true ∧
      (Next (fun op => if op < 85 then 4 else if op = 86 then 2 else 1)
        (memoryOf [31, 0, 1, 0, 86, 5, 85]))^[3] 0 = 7 :=
  ⟨by decide,
    (Next_straight_line (fun op => if op < 85 then 4 else if op = 86 then 2 else 1)
      (memoryOf [31, 0, 1, 0, 86, 5, 85]) 0 [31, 86, 85] (by decide)).2.2⟩

/-! ## Values of the enumerators and the classifiers as sets of opcode values -/

set_option maxRecDepth 100000 in
theorem IsJumpOpcode_eq (mem : Memory) (instr : Int) :
    IsJumpOpcode mem instr =
      List.contains
        [31, 32, 33, 34, 35, 36, 37, 38, 39, 158, 159, 160, 161, 162, 163, 164, 165, 166,
          167, 168, 169, 170, 171, 172, 173, 174, 175]
        (byteAt mem instr 0) := by
  have h :
      [kJump_Old, kJumpIfNoAsserts_Old, kJumpIfNotZeroTypeArgs_Old, kJumpIfEqStrict_Old,
        kJumpIfNeStrict_Old, kJumpIfTrue_Old, kJumpIfFalse_Old, kJumpIfNull_Old,
        kJumpIfNotNull_Old, kJump, kJump_Wide, kJumpIfNoAsserts, kJumpIfNoAsserts_Wide,
        kJumpIfNotZeroTypeArgs, kJumpIfNotZeroTypeArgs_Wide, kJumpIfEqStrict,
        kJumpIfEqStrict_Wide, kJumpIfNeStrict, kJumpIfNeStrict_Wide, kJumpIfTrue,
        kJumpIfTrue_Wide, kJumpIfFalse, kJumpIfFalse_Wide, kJumpIfNull, kJumpIfNull_Wide,
        kJumpIfNotNull, kJumpIfNotNull_Wide] =
      [31, 32, 33, 34, 35, 36, 37, 38, 39, 158, 159, 160, 161, 162, 163, 164, 165, 166, 167,
        168, 169, 170, 171, 172, 173, 174, 175] := by decide
  rw [IsJumpOpcode, h, DecodeOpcode]

set_option maxRecDepth 100000 in
theorem IsLoadConstantOpcode_eq (mem : Memory) (instr : Int) :
    IsLoadConstantOpcode mem instr =
      List.contains
        [92, 93, 4]
        (byteAt mem instr 0) := by
  have h :
      [kLoadConstant, kLoadConstant_Wide, kLoadConstant_Old] =
      [92, 93, 4] := by decide
  rw [IsLoadConstantOpcode, h, DecodeOpcode]

set_option maxRecDepth 100000 in
theorem IsCheckStackOpcode_eq (mem : Memory) (instr : Int) :
    IsCheckStackOpcode mem instr =
      List.contains
        [98, 7]
        (byteAt mem instr 0) := by
  have h :
      [kCheckStack, kCheckStack_Old] =
      [98, 7] := by decide
  rw [IsCheckStackOpcode, h, DecodeOpcode]

set_option maxRecDepth 100000 in
theorem IsEntryOptionalOpcode_eq (mem : Memory) (instr : Int) :
    IsEntryOptionalOpcode mem instr =
      List.contains
        [90, 3]
        (byteAt mem instr 0) := by
  have h :
      [kEntryOptional, kEntryOptional_Old] =
      [90, 3] := by decide
  rw [IsEntryOptionalOpcode, h, DecodeOpcode]

set_option maxRecDepth 100000 in
theorem IsFrameOpcode_eq (mem : Memory) (instr : Int) :
    IsFrameOpcode mem instr =
      List.contains
        [94, 95, 5]
        (byteAt mem instr 0) := by
  have h :
      [kFrame, kFrame_Wide, kFrame_Old] =
      [94, 95, 5] := by decide
  rw [IsFrameOpcode, h, DecodeOpcode]

set_option maxRecDepth 100000 in
theorem IsSetFrameOpcode_eq (mem : Memory) (instr : Int) :
    IsSetFrameOpcode mem instr =
      List.contains
        [213, 53]
        (byteAt mem instr 0) := by
  have h :
      [kSetFrame, kSetFrame_Old] =
      [213, 53] := by decide
  rw [IsSetFrameOpcode, h, DecodeOpcode]

set_option maxRecDepth 100000 in
theorem IsCallOpcode_Old_eq (mem : Memory) (instr : Int) :
    IsCallOpcode_Old mem instr =
      List.contains
        [72, 41, 74, 42]
        (byteAt mem instr 0) := by
  have h :
      [kDirectCall_Old, kInterfaceCall_Old, kUncheckedInterfaceCall_Old, kDynamicCall_Old] =
      [72, 41, 74, 42] := by decide
  rw [IsCallOpcode_Old, h, DecodeOpcode]

set_option maxRecDepth 100000 in
theorem IsNativeCallOpcode_eq (mem : Memory) (instr : Int) :
    IsNativeCallOpcode mem instr =
      List.contains
        [192, 193, 43]
        (byteAt mem instr 0) := by
  have h :
      [kNativeCall, kNativeCall_Wide, kNativeCall_Old] =
      [192, 193, 43] := by decide
  rw [IsNativeCallOpcode, h, DecodeOpcode]

set_option maxRecDepth 100000 in
theorem IsDebugBreakCheckedOpcode_eq (mem : Memory) (instr : Int) :
    IsDebugBreakCheckedOpcode mem instr =
      List.contains
        [98, 176, 180, 188, 190, 194]
        (byteAt mem instr 0) := by
  have h :
      [kCheckStack, kDirectCall, kInterfaceCall, kUncheckedInterfaceCall, kDynamicCall,
        kReturnTOS] =
      [98, 176, 180, 188, 190, 194] := by decide
  rw [IsDebugBreakCheckedOpcode, h, DecodeOpcode]

/-! ## Argument counts at return addresses -/

set_option maxRecDepth 100000 in
theorem call_enumerators :
    [kDirectCall, kInterfaceCall, kUncheckedInterfaceCall, kDynamicCall] =
        [176, 180, 188, 190] ∧
      [kDirectCall_Wide, kInterfaceCall_Wide, kUncheckedInterfaceCall_Wide,
          kDynamicCall_Wide] = [177, 181, 189, 191] ∧
      [kDirectCall_Old, kInterfaceCall_Old, kUncheckedInterfaceCall_Old, kDynamicCall_Old] =
        [72, 41, 74, 42] ∧
      kNativeCall_Old = 43 := by decide

set_option maxRecDepth 100000 in
theorem D_F_entries :
    ∀ b : Fin 256,
      ((entryOf b.val).map (fun e => (e.encoding, e.kind)) = some (.D_F, .ORDN) →
        b.val ∈ [176, 180, 188, 190]) ∧
      ((entryOf b.val).map (fun e => (e.encoding, e.kind)) = some (.D_F, .WIDE) →
        b.val ∈ [177, 181, 189, 191]) := by decide!

theorem DecodeF_compact (mem : Memory) (bc : Int)
    (h : byteAt mem bc 0 ∈ [176, 180, 188, 190]) : DecodeF mem bc = mem (bc + 2) := by
  have h1 : ¬ byteAt mem bc 0 < kTrap := by
    rw [kTrap_eq]; simp only [List.mem_cons, List.not_mem_nil, or_false] at h; omega
  have h2 : ¬ byteAt mem bc 0 % 2 = 1 := by
    simp only [List.mem_cons, List.not_mem_nil, or_false] at h; omega
  rw [DecodeF_eq, if_neg h1, if_neg h2]

theorem DecodeF_wide (mem : Memory) (bc : Int)
    (h : byteAt mem bc 0 ∈ [177, 181, 189, 191]) : DecodeF mem bc = mem (bc + 5) := by
  have h1 : ¬ byteAt mem bc 0 < kTrap := by
    rw [kTrap_eq]; simp only [List.mem_cons, List.not_mem_nil, or_false] at h; omega
  have h2 : byteAt mem bc 0 % 2 = 1 := by
    simp only [List.mem_cons, List.not_mem_nil, or_false] at h; omega
  rw [DecodeF_eq, if_neg h1, if_pos h2]

theorem DecodeF_old (mem : Memory) (bc : Int)
    (h : byteAt mem bc 0 ∈ [72, 41, 74, 42]) : DecodeF mem bc = mem (bc + 1) := by
  have h1 : byteAt mem bc 0 < kTrap := by
    rw [kTrap_eq]; simp only [List.mem_cons, List.not_mem_nil, or_false] at h; omega
  rw [DecodeF_eq, if_pos h1]

theorem DecodeArgc_add (mem : Memory) (bc : Int) (n : Int) :
    DecodeArgc mem (bc + (n + 1)) = mem (bc + n) := by
  unfold DecodeArgc
  congr 1
  omega

/-- C11: for an instruction whose opcode has operand form `D_F` in the bytecode list,
`DecodeArgc` at the return address equals `DecodeF` of the instruction, the return
address being 3 bytes on for the compact (`ORDN`) and 6 bytes on for the wide (`WIDE`)
variant; `DecodeArgc` reads only the byte before the return address, so it does not
depend on the opcode byte or on any other byte. -/
theorem DecodeArgc_eq_DecodeF (mem : Memory) (bc : Int) (e : BytecodeEntry)
    (he : entryOf (DecodeOpcode mem bc) = some e) (hf : e.encoding = .D_F) :
    (e.kind = .ORDN → DecodeArgc mem (bc + 3) = DecodeF mem bc) ∧
      (e.kind = .WIDE → DecodeArgc mem (bc + 6) = DecodeF mem bc) ∧
      ∀ (ret a : Int) (x : KBCInstr), a ≠ ret + -1 →
        DecodeArgc (Function.update mem a x) ret = DecodeArgc mem ret := by
  have hb := D_F_entries (mem (bc + 0))
  have he2 : entryOf (mem (bc + 0)).val = some e := he
  refine ⟨fun hk => ?_, fun hk => ?_, fun ret a x ha => ?_⟩
  · rw [DecodeF_compact mem bc (hb.1 (by rw [he2, Option.map_some', hf, hk]))]
    exact DecodeArgc_add mem bc 2
  · rw [DecodeF_wide mem bc (hb.2 (by rw [he2, Option.map_some', hf, hk]))]
    exact DecodeArgc_add mem bc 5
  · simp only [DecodeArgc, Function.update_noteq (Ne.symm ha)]

set_option maxRecDepth 100000 in
theorem DecodeArgc_eq_DecodeF_witness :
    entryOf (DecodeOpcode (memoryOf [176, 7, 2]) 0) =
        some (V "DirectCall" .D_F .ORDN .num .num .ign) ∧
      DecodeArgc (memoryOf [176, 7, 2]) (0 + 3) = DecodeF (memoryOf [176, 7, 2]) 0 ∧
      entryOf (DecodeOpcode (memoryOf [177, 7, 0, 0, 0, 2]) 0) =
        some (V "DirectCall_Wide" .D_F .WIDE .num .num .ign) ∧
      DecodeArgc (memoryOf [177, 7, 0, 0, 0, 2]) (0 + 6) =
        DecodeF (memoryOf [177, 7, 0, 0, 0, 2]) 0 ∧
      DecodeArgc (Function.update (memoryOf [176, 7, 2]) 0 177) 3 =
        DecodeArgc (memoryOf [176, 7, 2]) 3 :=
  ⟨by decide,
    (DecodeArgc_eq_DecodeF (memoryOf [176, 7, 2]) 0 (V "DirectCall" .D_F .ORDN .num .num .ign)
      (by decide) rfl).1 rfl,
    by decide,
    (DecodeArgc_eq_DecodeF (memoryOf [177, 7, 0, 0, 0, 2]) 0
      (V "DirectCall_Wide" .D_F .WIDE .num .num .ign) (by decide) rfl).2.1 rfl,
    (DecodeArgc_eq_DecodeF (memoryOf [176, 7, 2]) 0 (V "DirectCall" .D_F .ORDN .num .num .ign)
      (by decide) rfl).2.2 3 0 177 (by decide)⟩

theorem mem_of_enumerators {op : Opcode} {ks vs : List Opcode} (e : ks = vs) (h : op ∈ ks) :
    op ∈ vs := e ▸ h

theorem DecodeArgc_Old_of_call (debug : Bool) (mem : Memory) (ret : Int)
    (h : byteAt mem (ret - 4) 0 ∈ [72, 41, 74, 42]) :
    DecodeArgc_Old debug mem ret = some (DecodeA mem (ret - 4)) := by
  have h1 : IsOld mem (ret - 4) = true := by
    rw [IsOld_iff, kTrap_eq]
    simp only [List.mem_cons, List.not_mem_nil, or_false] at h
    omega
  have h2 : IsCallOpcode_Old mem (ret - 4) = true := by
    rw [IsCallOpcode_Old_eq]
    exact List.elem_iff.mpr h
  have h3 : ¬ DecodeOpcode mem (ret - 4) = kNativeCall_Old := by
    rw [call_enumerators.2.2.2, DecodeOpcode]
    intro e
    rw [e] at h
    exact absurd h (by decide)
  simp only [DecodeArgc_Old, ASSERT, h1, h2, h3, Bool.not_true, Bool.and_false,
    Bool.false_eq_true, if_false, Option.some_bind]

theorem DecodeArgc_Old_of_native (debug : Bool) (mem : Memory) (ret : Int)
    (h : byteAt mem (ret - 4) 0 = 43) :
    DecodeArgc_Old debug mem ret = some kNativeCallToGrowableListArgc := by
  have h1 : IsOld mem (ret - 4) = true := by
    rw [IsOld_iff, kTrap_eq]
    omega
  have h3 : DecodeOpcode mem (ret - 4) = kNativeCall_Old := by
    rw [call_enumerators.2.2.2, DecodeOpcode]
    exact h
  simp only [DecodeArgc_Old, ASSERT, h1, h3, Bool.not_true, Bool.and_false,
    Bool.false_eq_true, if_false, if_true, Option.some_bind]

/-- C12 fails on the old layout: in the 4-byte instruction `DirectCall_Old 2, 5` the
operand `DecodeF` is byte 1, not the last byte, and `DecodeArgc` at the return address
reads the last byte `0`, not the argument count `2`. -/
theorem DecodeF_old_not_last_byte :
    DecodeOpcode (memoryOf [72, 2, 5, 0]) 0 = kDirectCall_Old ∧
      DecodeF (memoryOf [72, 2, 5, 0]) 0 = 2 ∧
      DecodeF (memoryOf [72, 2, 5, 0]) 0 ≠ memoryOf [72, 2, 5, 0] (0 + 3) ∧
      DecodeArgc (memoryOf [72, 2, 5, 0]) (0 + 4) ≠ DecodeF (memoryOf [72, 2, 5, 0]) 0 := by
  refine ⟨?_, by decide, by decide, by decide⟩
  rw [(List.cons_eq_cons.mp call_enumerators.2.2.1).1]
  decide

/-- C12, amended: in a compact (3 bytes) or wide (6 bytes) call instruction `DecodeF`
is the last byte and `DecodeArgc` at the return address recovers it; in an old call
instruction (4 bytes) `DecodeF` is byte 1 and the argument count is recovered from the
return address by `DecodeArgc_Old`. -/
theorem DecodeF_of_call (mem : Memory) (bc : Int) :
    (DecodeOpcode mem bc ∈
        [kDirectCall, kInterfaceCall, kUncheckedInterfaceCall, kDynamicCall] →
      DecodeF mem bc = mem (bc + 2) ∧ DecodeArgc mem (bc + 3) = DecodeF mem bc) ∧
    (DecodeOpcode mem bc ∈
        [kDirectCall_Wide, kInterfaceCall_Wide, kUncheckedInterfaceCall_Wide,
          kDynamicCall_Wide] →
      DecodeF mem bc = mem (bc + 5) ∧ DecodeArgc mem (bc + 6) = DecodeF mem bc) ∧
    (DecodeOpcode mem bc ∈
        [kDirectCall_Old, kInterfaceCall_Old, kUncheckedInterfaceCall_Old,
          kDynamicCall_Old] →
      DecodeF mem bc = mem (bc + 1) ∧
        ∀ debug : Bool, DecodeArgc_Old debug mem (bc + 4) = some (DecodeF mem bc)) := by
  refine ⟨fun h => ?_, fun h => ?_, fun h => ?_⟩
  · have hb := mem_of_enumerators call_enumerators.1 h
    rw [DecodeF_compact mem bc hb]
    exact ⟨rfl, DecodeArgc_add mem bc 2⟩
  · have hb := mem_of_enumerators call_enumerators.2.1 h
    rw [DecodeF_wide mem bc hb]
    exact ⟨rfl, DecodeArgc_add mem bc 5⟩
  · have hb := mem_of_enumerators call_enumerators.2.2.1 h
    rw [DecodeF_old mem bc hb]
    refine ⟨rfl, fun debug => ?_⟩
    have e : bc + 4 - 4 = bc := by omega
    rw [DecodeArgc_Old_of_call debug mem (bc + 4) (by rw [e]; exact hb), e, DecodeA]

set_option maxRecDepth 100000 in
theorem DecodeF_of_call_witness :
    DecodeOpcode (memoryOf [180, 9, 3]) 0 ∈
        [kDirectCall, kInterfaceCall, kUncheckedInterfaceCall, kDynamicCall] ∧
      DecodeArgc (memoryOf [180, 9, 3]) (0 + 3) = DecodeF (memoryOf [180, 9, 3]) 0 ∧
      DecodeOpcode (memoryOf [181, 9, 1, 0, 0, 3]) 0 ∈
        [kDirectCall_Wide, kInterfaceCall_Wide, kUncheckedInterfaceCall_Wide,
          kDynamicCall_Wide] ∧
      DecodeArgc (memoryOf [181, 9, 1, 0, 0, 3]) (0 + 6) =
        DecodeF (memoryOf [181, 9, 1, 0, 0, 3]) 0 ∧
      DecodeOpcode (memoryOf [41, 3, 9, 1]) 0 ∈
        [kDirectCall_Old, kInterfaceCall_Old, kUncheckedInterfaceCall_Old,
          kDynamicCall_Old] ∧
      DecodeArgc_Old true (memoryOf [41, 3, 9, 1]) (0 + 4) =
        some (DecodeF (memoryOf [41, 3, 9, 1]) 0) :=
  ⟨by decide, ((DecodeF_of_call (memoryOf [180, 9, 3]) 0).1 (by decide)).2,
    by decide, ((DecodeF_of_call (memoryOf [181, 9, 1, 0, 0, 3]) 0).2.1 (by decide)).2,
    by decide, ((DecodeF_of_call (memoryOf [41, 3, 9, 1]) 0).2.2 (by decide)).2 true⟩

/-- C13 fails in all three layouts: for `DirectCall_Old 2, 5`, `DirectCall 7, 2` and
`DirectCall_Wide 7, 2`, `DecodeArgc` at the address just past the instruction is not
the instruction's A operand. -/
theorem DecodeArgc_ne_DecodeA :
    DecodeArgc (memoryOf [72, 2, 5, 0]) 4 ≠ DecodeA (memoryOf [72, 2, 5, 0]) 0 ∧
      DecodeArgc (memoryOf [176, 7, 2]) 3 ≠ DecodeA (memoryOf [176, 7, 2]) 0 ∧
      DecodeArgc (memoryOf [177, 7, 0, 0, 0, 2]) 6 ≠
        DecodeA (memoryOf [177, 7, 0, 0, 0, 2]) 0 := by
  decide

/-- C13, amended: for a call instruction constructed in the compact layout
`[op, D, F]` or the wide layout `[op, D0, D1, D2, D3, F]`, `DecodeArgc` at the address
just past the instruction returns its F operand (`DecodeF`); for one constructed in the
old layout `[op, A, D0, D1]` it is `DecodeArgc_Old` at that address that returns its A
operand (`DecodeA`). -/
theorem DecodeArgc_of_constructed_call (op a b c d f : KBCInstr) :
    (op.val ∈ [kDirectCall, kInterfaceCall, kUncheckedInterfaceCall, kDynamicCall] →
      DecodeArgc (memoryOf [op, d, f]) 3 = f ∧ DecodeF (memoryOf [op, d, f]) 0 = f) ∧
    (op.val ∈ [kDirectCall_Wide, kInterfaceCall_Wide, kUncheckedInterfaceCall_Wide,
          kDynamicCall_Wide] →
      DecodeArgc (memoryOf [op, a, b, c, d, f]) 6 = f ∧
        DecodeF (memoryOf [op, a, b, c, d, f]) 0 = f) ∧
    (op.val ∈ [kDirectCall_Old, kInterfaceCall_Old, kUncheckedInterfaceCall_Old,
          kDynamicCall_Old] →
      ∀ debug : Bool,
        DecodeArgc_Old debug (memoryOf [op, a, b, c]) 4 = some a ∧
          DecodeA (memoryOf [op, a, b, c]) 0 = a) := by
  refine ⟨fun h => ⟨rfl, ?_⟩, fun h => ⟨rfl, ?_⟩, fun h debug => ⟨?_, rfl⟩⟩
  · exact DecodeF_compact _ 0 (mem_of_enumerators call_enumerators.1 h)
  · exact DecodeF_wide _ 0 (mem_of_enumerators call_enumerators.2.1 h)
  · exact DecodeArgc_Old_of_call debug _ 4 (mem_of_enumerators call_enumerators.2.2.1 h)

set_option maxRecDepth 100000 in
theorem DecodeArgc_of_constructed_call_witness :
    DecodeArgc (memoryOf [188, 4, 1]) 3 = 1 ∧ DecodeF (memoryOf [188, 4, 1]) 0 = 1 ∧
      DecodeArgc (memoryOf [189, 4, 3, 2, 1, 5]) 6 = 5 ∧
      DecodeF (memoryOf [189, 4, 3, 2, 1, 5]) 0 = 5 ∧
      DecodeArgc_Old true (memoryOf [74, 6, 3, 2]) 4 = some 6 ∧
      DecodeA (memoryOf [74, 6, 3, 2]) 0 = 6 :=
  ⟨((DecodeArgc_of_constructed_call 188 0 0 0 4 1).1 (by decide)).1,
    ((DecodeArgc_of_constructed_call 188 0 0 0 4 1).1 (by decide)).2,
    ((DecodeArgc_of_constructed_call 189 4 3 2 1 5).2.1 (by decide)).1,
    ((DecodeArgc_of_constructed_call 189 4 3 2 1 5).2.1 (by decide)).2,
    ((DecodeArgc_of_constructed_call 74 6 3 2 0 0).2.2 (by decide) true).1,
    ((DecodeArgc_of_constructed_call 74 6 3 2 0 0).2.2 (by decide) true).2⟩

/-- C14: when the instruction at `ret - 4` has one of the old call opcodes
`DirectCall_Old`, `InterfaceCall_Old`, `UncheckedInterfaceCall_Old`, `DynamicCall_Old`,
`DecodeArgc_Old(ret)` returns (with assertions enabled or not) the A field of that
instruction, which is the byte at `ret - 3`. -/
theorem DecodeArgc_Old_eq_DecodeA (debug : Bool) (mem : Memory) (ret : Int)
    (h : DecodeOpcode mem (ret - 4) ∈
      [kDirectCall_Old, kInterfaceCall_Old, kUncheckedInterfaceCall_Old, kDynamicCall_Old]) :
    DecodeArgc_Old debug mem ret = some (DecodeA mem (ret - 4)) ∧
      DecodeA mem (ret - 4) = mem (ret - 3) := by
  refine ⟨DecodeArgc_Old_of_call debug mem ret
    (mem_of_enumerators call_enumerators.2.2.1 h), ?_⟩
  unfold DecodeA
  congr 1
  omega

set_option maxRecDepth 100000 in
theorem DecodeArgc_Old_eq_DecodeA_witness :
    DecodeOpcode (memoryOf [0, 0, 0, 0, 42, 3, 1, 0]) (8 - 4) ∈
        [kDirectCall_Old, kInterfaceCall_Old, kUncheckedInterfaceCall_Old,
          kDynamicCall_Old] ∧
      DecodeArgc_Old true (memoryOf [0, 0, 0, 0, 42, 3, 1, 0]) 8 =
        some (DecodeA (memoryOf [0, 0, 0, 0, 42, 3, 1, 0]) (8 - 4)) ∧
      DecodeA (memoryOf [0, 0, 0, 0, 42, 3, 1, 0]) (8 - 4) =
        memoryOf [0, 0, 0, 0, 42, 3, 1, 0] (8 - 3) :=
  ⟨by decide,
    DecodeArgc_Old_eq_DecodeA true (memoryOf [0, 0, 0, 0, 42, 3, 1, 0]) 8 (by decide)⟩

/-- C15: when the byte at `ret - 4` is the opcode `NativeCall_Old`, `DecodeArgc_Old(ret)`
returns (with assertions enabled or not) `kNativeCallToGrowableListArgc`, which is 2,
whatever else the memory holds. -/
theorem DecodeArgc_Old_native_call (debug : Bool) (mem : Memory) (ret : Int)
    (h : DecodeOpcode mem (ret - 4) = kNativeCall_Old) :
    DecodeArgc_Old debug mem ret = some kNativeCallToGrowableListArgc ∧
      kNativeCallToGrowableListArgc = 2 := by
  refine ⟨DecodeArgc_Old_of_native debug mem ret ?_, rfl⟩
  rw [← call_enumerators.2.2.2]
  exact h

set_option maxRecDepth 100000 in
theorem DecodeArgc_Old_native_call_witness :
    DecodeOpcode (memoryOf [43, 200, 100, 50]) (4 - 4) = kNativeCall_Old ∧
      DecodeArgc_Old true (memoryOf [43, 200, 100, 50]) 4 = some 2 :=
  ⟨by decide,
    (DecodeArgc_Old_native_call true (memoryOf [43, 200, 100, 50]) 4 (by decide)).1⟩

/-! ## Classification of opcodes -/

set_option maxRecDepth 100000 in
theorem classifiers_by_name :
    ∀ b : Fin 256, ∀ e ∈ entryOf b.val,
      List.map (fun l : List Opcode => l.contains b.val)
          [[31, 32, 33, 34, 35, 36, 37, 38, 39, 158, 159, 160, 161, 162, 163, 164, 165, 166,
              167, 168, 169, 170, 171, 172, 173, 174, 175],
            [92, 93, 4], [98, 7], [90, 3], [94, 95, 5], [213, 53], [192, 193, 43]] =
        classifierLabels.map (fun l => l.contains e.name) := by
  decide!

set_option maxRecDepth 100000 in
theorem classifierLabels_suffix :
    ∀ c : Fin 256, ∀ e ∈ entryOf c.val,
      (e.name.data.drop (e.name.data.length - "_Wide".data.length) = "_Wide".data →
        classifierLabels.map (fun l => l.contains e.name) =
          classifierLabels.map (fun l => l.contains
            (String.mk (e.name.data.take (e.name.data.length - "_Wide".data.length))))) ∧
      (e.name.data.drop (e.name.data.length - "_Old".data.length) = "_Old".data →
        classifierLabels.map (fun l => l.contains e.name) =
          classifierLabels.map (fun l => l.contains
            (String.mk (e.name.data.take (e.name.data.length - "_Old".data.length))))) := by
  decide!

theorem drop_data_append (x s : String) :
    (x ++ s).data.drop ((x ++ s).data.length - s.data.length) = s.data := by
  rw [String.data_append, List.length_append, Nat.add_sub_cancel]
  exact List.drop_left' rfl

theorem take_data_append (x s : String) :
    String.mk ((x ++ s).data.take ((x ++ s).data.length - s.data.length)) = x := by
  rw [String.data_append, List.length_append, Nat.add_sub_cancel, List.take_left' rfl]

theorem classifierLabels_variant (c : Fin 256) (ex ey : BytecodeEntry)
    (hy : entryOf c.val = some ey)
    (hv : ey.name = ex.name ++ "_Wide" ∨ ey.name = ex.name ++ "_Old") :
    classifierLabels.map (fun l => l.contains ey.name) =
      classifierLabels.map (fun l => l.contains ex.name) := by
  have hs := classifierLabels_suffix c ey hy
  rcases hv with hv | hv
  · have h := hs.1 (by rw [hv]; exact drop_data_append ex.name "_Wide")
    rw [h, hv, take_data_append]
  · have h := hs.2 (by rw [hv]; exact drop_data_append ex.name "_Old")
    rw [h, hv, take_data_append]

/-- C19: each of `IsJumpOpcode`, `IsLoadConstantOpcode`, `IsCheckStackOpcode`,
`IsEntryOptionalOpcode`, `IsFrameOpcode`, `IsSetFrameOpcode` and `IsNativeCallOpcode`
gives the same answer on an opcode `X` of the bytecode list and on the opcode named
`X_Wide`, and on the opcode named `X_Old`, whenever the list has one. -/
theorem classifiers_cover_variants (mem mem2 : Memory) (x y : Int) (ex ey : BytecodeEntry)
    (hx : entryOf (DecodeOpcode mem x) = some ex)
    (hy : entryOf (DecodeOpcode mem2 y) = some ey)
    (hv : ey.name = ex.name ++ "_Wide" ∨ ey.name = ex.name ++ "_Old") :
    IsJumpOpcode mem2 y = IsJumpOpcode mem x ∧
      IsLoadConstantOpcode mem2 y = IsLoadConstantOpcode mem x ∧
      IsCheckStackOpcode mem2 y = IsCheckStackOpcode mem x ∧
      IsEntryOptionalOpcode mem2 y = IsEntryOptionalOpcode mem x ∧
      IsFrameOpcode mem2 y = IsFrameOpcode mem x ∧
      IsSetFrameOpcode mem2 y = IsSetFrameOpcode mem x ∧
      IsNativeCallOpcode mem2 y = IsNativeCallOpcode mem x := by
  have hb := classifiers_by_name (mem (x + 0)) ex hx
  have hc := classifiers_by_name (mem2 (y + 0)) ey hy
  rw [classifierLabels_variant (mem2 (y + 0)) ex ey hy hv, ← hb] at hc
  simp only [List.map, List.cons.injEq, and_true] at hc
  rw [IsJumpOpcode_eq, IsJumpOpcode_eq, IsLoadConstantOpcode_eq, IsLoadConstantOpcode_eq,
    IsCheckStackOpcode_eq, IsCheckStackOpcode_eq, IsEntryOptionalOpcode_eq,
    IsEntryOptionalOpcode_eq, IsFrameOpcode_eq, IsFrameOpcode_eq, IsSetFrameOpcode_eq,
    IsSetFrameOpcode_eq, IsNativeCallOpcode_eq, IsNativeCallOpcode_eq]
  exact hc

set_option maxRecDepth 100000 in
theorem classifiers_cover_variants_witness :
    entryOf (DecodeOpcode (memoryOf [158, 4]) 0) = some (V "Jump" .T .ORDN .tgt .ign .ign) ∧
      entryOf (DecodeOpcode (memoryOf [159, 4, 0, 0]) 0) =
        some (V "Jump_Wide" .T .WIDE .tgt .ign .ign) ∧
      entryOf (DecodeOpcode (memoryOf [31, 4, 0, 0]) 0) =
        some (V "Jump_Old" .T .OLD .tgt .ign .ign) ∧
      IsJumpOpcode (memoryOf [159, 4, 0, 0]) 0 = IsJumpOpcode (memoryOf [158, 4]) 0 ∧
      IsNativeCallOpcode (memoryOf [31, 4, 0, 0]) 0 = IsNativeCallOpcode (memoryOf [158, 4]) 0 :=
  ⟨by decide, by decide, by decide,
    (classifiers_cover_variants (memoryOf [158, 4]) (memoryOf [159, 4, 0, 0]) 0 0
      (V "Jump" .T .ORDN .tgt .ign .ign) (V "Jump_Wide" .T .WIDE .tgt .ign .ign)
      (by decide) (by decide) (Or.inl (by decide))).1,
    (classifiers_cover_variants (memoryOf [158, 4]) (memoryOf [31, 4, 0, 0]) 0 0
      (V "Jump" .T .ORDN .tgt .ign .ign) (V "Jump_Old" .T .OLD .tgt .ign .ign)
      (by decide) (by decide) (Or.inr (by decide))).2.2.2.2.2.2⟩

set_option maxRecDepth 100000 in
theorem jump_entries :
    ∀ b : Fin 256, ∃ e, e ∈ entryOf b.val ∧
      ([31, 32, 33, 34, 35, 36, 37, 38, 39, 158, 159, 160, 161, 162, 163, 164, 165, 166, 167,
          168, 169, 170, 171, 172, 173, 174, 175].contains b.val = true ↔
        e.encoding = .T) ∧
      (e.encoding = .T ↔ e.op1 = .tgt) ∧
      (e.encoding = .T ↔
        e.name ∈ List.flatMap
          ["Jump", "JumpIfNoAsserts", "JumpIfNotZeroTypeArgs", "JumpIfEqStrict",
            "JumpIfNeStrict", "JumpIfTrue", "JumpIfFalse", "JumpIfNull", "JumpIfNotNull"]
          (fun k => [k ++ "_Old", k, k ++ "_Wide"])) := by
  decide!

/-- C16: `IsJumpOpcode` holds for an instruction exactly when the entry of its opcode
in the bytecode list has operand form `T`, which is exactly when its first operand role
is `tgt`, and exactly when it is one of the nine jump kinds in its `_Old`, compact or
`_Wide` variant. -/
theorem IsJumpOpcode_iff (mem : Memory) (instr : Int) :
    ∃ e, entryOf (DecodeOpcode mem instr) = some e ∧
      (IsJumpOpcode mem instr = true ↔ e.encoding = .T) ∧
      (IsJumpOpcode mem instr = true ↔ e.op1 = .tgt) ∧
      (IsJumpOpcode mem instr = true ↔
        e.name ∈ List.flatMap
          ["Jump", "JumpIfNoAsserts", "JumpIfNotZeroTypeArgs", "JumpIfEqStrict",
            "JumpIfNeStrict", "JumpIfTrue", "JumpIfFalse", "JumpIfNull", "JumpIfNotNull"]
          (fun k => [k ++ "_Old", k, k ++ "_Wide"])) := by
  obtain ⟨e, he, h1, h2, h3⟩ := jump_entries (mem (instr + 0))
  refine ⟨e, he, ?_, ?_, ?_⟩
  · rw [IsJumpOpcode_eq]; exact h1
  · rw [IsJumpOpcode_eq]; exact h1.trans h2
  · rw [IsJumpOpcode_eq]; exact h1.trans h3

/-- C17 fails: the number of opcode bytes on which `IsJumpOpcode` holds is not 18. -/
theorem IsJumpOpcode_count_ne :
    (List.finRange 256).countP (fun b => IsJumpOpcode (memoryOf [b]) 0) ≠ 18 := by
  simp only [IsJumpOpcode_eq]
  decide!

/-- C17, amended: the number of opcodes (old, ordinary and wide together) for which
`IsJumpOpcode` holds is 27, nine in each of the three variants. -/
theorem IsJumpOpcode_count :
    (List.finRange 256).countP (fun b => IsJumpOpcode (memoryOf [b]) 0) = 27 ∧
      (List.finRange 256).countP
          (fun b => IsJumpOpcode (memoryOf [b]) 0 && IsOld (memoryOf [b]) 0) = 9 ∧
      (List.finRange 256).countP
          (fun b => IsJumpOpcode (memoryOf [b]) 0 && !IsOld (memoryOf [b]) 0 &&
            !IsWide (memoryOf [b]) 0) = 9 ∧
      (List.finRange 256).countP
          (fun b => IsJumpOpcode (memoryOf [b]) 0 && !IsOld (memoryOf [b]) 0 &&
            IsWide (memoryOf [b]) 0) = 9 := by
  simp only [IsJumpOpcode_eq, IsOld, IsWide, DecodeOpcode, kTrap_eq, kWideModifier]
  decide!

theorem classifiers_disjoint_values :
    ∀ b : Fin 256,
      List.count true
          [[31, 32, 33, 34, 35, 36, 37, 38, 39, 158, 159, 160, 161, 162, 163, 164, 165, 166,
              167, 168, 169, 170, 171, 172, 173, 174, 175].contains b.val,
            [92, 93, 4].contains b.val, [98, 7].contains b.val, [90, 3].contains b.val,
            [94, 95, 5].contains b.val, [213, 53].contains b.val,
            [72, 41, 74, 42].contains b.val, [192, 193, 43].contains b.val] ≤ 1 := by
  decide!

/-- C18: on every instruction at most one of `IsJumpOpcode`, `IsLoadConstantOpcode`,
`IsCheckStackOpcode`, `IsEntryOptionalOpcode`, `IsFrameOpcode`, `IsSetFrameOpcode`,
`IsCallOpcode_Old` and `IsNativeCallOpcode` holds; in particular no opcode is both a
jump and a native call. -/
theorem classifiers_disjoint (mem : Memory) (instr : Int) :
    List.count true
        [IsJumpOpcode mem instr, IsLoadConstantOpcode mem instr,
          IsCheckStackOpcode mem instr, IsEntryOptionalOpcode mem instr,
          IsFrameOpcode mem instr, IsSetFrameOpcode mem instr, IsCallOpcode_Old mem instr,
          IsNativeCallOpcode mem instr] ≤ 1 ∧
      ¬ (IsJumpOpcode mem instr = true ∧ IsNativeCallOpcode mem instr = true) := by
  have h := classifiers_disjoint_values (mem (instr + 0))
  rw [IsJumpOpcode_eq, IsLoadConstantOpcode_eq, IsCheckStackOpcode_eq,
    IsEntryOptionalOpcode_eq, IsFrameOpcode_eq, IsSetFrameOpcode_eq, IsCallOpcode_Old_eq,
    IsNativeCallOpcode_eq]
  refine ⟨h, ?_⟩
  rintro ⟨hj, hn⟩
  have hj2 := List.elem_iff.mp hj
  have hn2 := List.elem_iff.mp hn
  simp only [List.mem_cons, List.not_mem_nil, or_false] at hj2 hn2
  omega

/-- C20 fails on `CheckStack`: `IsDebugBreakCheckedOpcode` accepts it, and it is neither
a call opcode (in any variant) nor a return opcode. -/
theorem IsDebugBreakCheckedOpcode_CheckStack :
    IsDebugBreakCheckedOpcode (memoryOf [98, 0]) 0 = true ∧
      (entryOf (DecodeOpcode (memoryOf [98, 0]) 0)).map (fun e => e.name) =
        some "CheckStack" ∧
      DecodeOpcode (memoryOf [98, 0]) 0 ∉
        [kDirectCall, kDirectCall_Wide, kDirectCall_Old, kInterfaceCall, kInterfaceCall_Wide,
          kInterfaceCall_Old, kUncheckedInterfaceCall, kUncheckedInterfaceCall_Wide,
          kUncheckedInterfaceCall_Old, kDynamicCall, kDynamicCall_Wide, kDynamicCall_Old,
          kReturnTOS, kReturnTOS_Old] := by
  decide!

/-- C20, amended: every opcode that `IsDebugBreakCheckedOpcode` accepts is a call
(`DirectCall`, `InterfaceCall`, `UncheckedInterfaceCall`, `DynamicCall`), `ReturnTOS` or
`CheckStack`. -/
theorem IsDebugBreakCheckedOpcode_only (mem : Memory) (instr : Int)
    (h : IsDebugBreakCheckedOpcode mem instr = true) :
    DecodeOpcode mem instr ∈
      [kDirectCall, kInterfaceCall, kUncheckedInterfaceCall, kDynamicCall, kReturnTOS,
        kCheckStack] := by
  show DecodeOpcode mem instr ∈
    [kDirectCall, kInterfaceCall, kUncheckedInterfaceCall, kDynamicCall, kReturnTOS] ++
      [kCheckStack]
  rw [List.mem_append, List.mem_singleton]
  exact (List.mem_cons.mp (List.elem_iff.mp h)).symm

set_option maxRecDepth 100000 in
theorem IsDebugBreakCheckedOpcode_only_witness :
    IsDebugBreakCheckedOpcode (memoryOf [194]) 0 = true ∧
      DecodeOpcode (memoryOf [194]) 0 ∈
        [kDirectCall, kInterfaceCall, kUncheckedInterfaceCall, kDynamicCall, kReturnTOS,
          kCheckStack] :=
  ⟨by decide, IsDebugBreakCheckedOpcode_only (memoryOf [194]) 0 (by decide)⟩

/-! ## Debug checks on wide calls -/

set_option maxRecDepth 100000 in
theorem debug_checked_values :
    IsDebugBreakCheckedOpcode (memoryOf [176, 7, 2]) 0 = true ∧
      IsDebugBreakCheckedOpcode (memoryOf [177, 7, 0, 0, 0, 2]) 0 = false ∧
      IsDebugBreakCheckedOpcode (memoryOf [180, 7, 2]) 0 = true ∧
      IsDebugBreakCheckedOpcode (memoryOf [181, 7, 0, 0, 0, 2]) 0 = false ∧
      IsDebugBreakCheckedOpcode (memoryOf [188, 7, 2]) 0 = true ∧
      IsDebugBreakCheckedOpcode (memoryOf [189, 7, 0, 0, 0, 2]) 0 = false ∧
      IsDebugBreakCheckedOpcode (memoryOf [190, 7, 2]) 0 = true ∧
      IsDebugBreakCheckedOpcode (memoryOf [191, 7, 0, 0, 0, 2]) 0 = false := by
  simp only [IsDebugBreakCheckedOpcode_eq]
  decide

/-- C21 does not hold in the code: `IsDebugBreakCheckedOpcode` is true on the compact
instructions `DirectCall 7, 2`, `InterfaceCall 7, 2`, `UncheckedInterfaceCall 7, 2` and
`DynamicCall 7, 2` and false on their `_Wide` variants; the opcodes evaluated are the
ones the bytecode list names so. -/
theorem IsDebugBreakCheckedOpcode_wide_call :
    (IsDebugBreakCheckedOpcode (memoryOf [176, 7, 2]) 0 = true ∧
        IsDebugBreakCheckedOpcode (memoryOf [177, 7, 0, 0, 0, 2]) 0 = false ∧
        IsDebugBreakCheckedOpcode (memoryOf [180, 7, 2]) 0 = true ∧
        IsDebugBreakCheckedOpcode (memoryOf [181, 7, 0, 0, 0, 2]) 0 = false ∧
        IsDebugBreakCheckedOpcode (memoryOf [188, 7, 2]) 0 = true ∧
        IsDebugBreakCheckedOpcode (memoryOf [189, 7, 0, 0, 0, 2]) 0 = false ∧
        IsDebugBreakCheckedOpcode (memoryOf [190, 7, 2]) 0 = true ∧
        IsDebugBreakCheckedOpcode (memoryOf [191, 7, 0, 0, 0, 2]) 0 = false) ∧
      List.map (fun op => (entryOf op).map (fun e => e.name))
          [176, 177, 180, 181, 188, 189, 190, 191] =
        [some "DirectCall", some "DirectCall_Wide", some "InterfaceCall",
          some "InterfaceCall_Wide", some "UncheckedInterfaceCall",
          some "UncheckedInterfaceCall_Wide", some "DynamicCall", some "DynamicCall_Wide"] :=
  ⟨debug_checked_values, by decide!⟩

/-! ## Format versions and the magic value -/

/-- C22: a version `v` lies in the range from `kMinSupportedBytecodeFormatVersion` to
`kMaxSupportedBytecodeFormatVersion` exactly when `3 <= v <= 9`, so 3 and 9 are in the
range and 2 and 10 are not; `kMagicValue` is `0x44424332`, whose bytes from the most
significant are the characters `D`, `B`, `C`, `2`. -/
theorem version_gate_constants :
    (∀ v : Int, (kMinSupportedBytecodeFormatVersion ≤ v ∧
        v ≤ kMaxSupportedBytecodeFormatVersion) ↔ (3 ≤ v ∧ v ≤ 9)) ∧
      (kMinSupportedBytecodeFormatVersion ≤ 3 ∧ 3 ≤ kMaxSupportedBytecodeFormatVersion) ∧
      (kMinSupportedBytecodeFormatVersion ≤ 9 ∧ 9 ≤ kMaxSupportedBytecodeFormatVersion) ∧
      ¬ (kMinSupportedBytecodeFormatVersion ≤ 2 ∧ 2 ≤ kMaxSupportedBytecodeFormatVersion) ∧
      ¬ (kMinSupportedBytecodeFormatVersion ≤ 10 ∧
        10 ≤ kMaxSupportedBytecodeFormatVersion) ∧
      kMagicValue = 0x44424332 ∧
      [kMagicValue / 2 ^ 24 % 256, kMagicValue / 2 ^ 16 % 256, kMagicValue / 2 ^ 8 % 256,
          kMagicValue % 256] =
        [('D'.toNat : Int), ('B'.toNat : Int), ('C'.toNat : Int), ('2'.toNat : Int)] := by
  refine ⟨fun v => Iff.rfl, by decide, by decide, by decide, by decide, rfl, by decide⟩

/-! ## Program counters and offsets -/

/-- C23: for `intptr_t` of 32 or 64 bits, every 32-bit unsigned `pc` and both values of
`is_return_address`, `OffsetToBytecodePc(BytecodePcToOffset(pc, r), r) = pc`. -/
theorem OffsetToBytecodePc_BytecodePcToOffset (w : Nat) (hw : w = 32 ∨ w = 64) (pc : Nat)
    (hpc : pc < 2 ^ 32) (is_return_address : Bool) :
    OffsetToBytecodePc w (BytecodePcToOffset w pc is_return_address) is_return_address =
      pc := by
  unfold OffsetToBytecodePc BytecodePcToOffset intToUint32 toIntptr toSigned toUint32
  rcases hw with rfl | rfl <;> cases is_return_address <;>
    simp only [Bool.false_eq_true, if_false, if_true] <;> omega

theorem OffsetToBytecodePc_BytecodePcToOffset_witness :
    OffsetToBytecodePc 64 (BytecodePcToOffset 64 4294967295 true) true = 4294967295 ∧
      OffsetToBytecodePc 32 (BytecodePcToOffset 32 2147483647 true) true = 2147483647 :=
  ⟨OffsetToBytecodePc_BytecodePcToOffset 64 (Or.inr rfl) 4294967295 (by decide) true,
    OffsetToBytecodePc_BytecodePcToOffset 32 (Or.inl rfl) 2147483647 (by decide) true⟩

/-- C24 fails at the largest `pc`: the sum is computed in `uint32_t`, so
`BytecodePcToOffset(2^32 - 1, true)` is 0, not `pc + 1 = 2^32`, for `intptr_t` of 64 and
of 32 bits. -/
theorem BytecodePcToOffset_wraps :
    BytecodePcToOffset 64 4294967295 true = 0 ∧
      BytecodePcToOffset 64 4294967295 true ≠ 4294967295 + 1 ∧
      BytecodePcToOffset 32 4294967295 true = 0 ∧
      BytecodePcToOffset 32 4294967295 true ≠ 4294967295 + 1 := by
  decide

/-- C24, amended: for `intptr_t` of 32 or 64 bits and every 32-bit unsigned `pc`,
`BytecodePcToOffset(pc, false) = pc` and `BytecodePcToOffset(pc, true) = pc + 1` as
32-bit unsigned values, and as integers whenever `pc + 1` fits in 32 unsigned bits and
in `intptr_t`; at `pc = 2^32 - 1` the sum wraps and `BytecodePcToOffset(pc, true)` is 0;
for every `offset`, `OffsetToBytecodePc(offset, false) = offset` and
`OffsetToBytecodePc(offset, true) = offset - 1` as 32-bit unsigned values. -/
theorem BytecodePcToOffset_OffsetToBytecodePc_values (w : Nat) (hw : w = 32 ∨ w = 64)
    (pc : Nat) (hpc : pc < 2 ^ 32) :
    BytecodePcToOffset w pc false % 2 ^ 32 = pc ∧
      BytecodePcToOffset w pc true % 2 ^ 32 = ((pc : Int) + 1) % 2 ^ 32 ∧
      (∀ offset : Int,
        (OffsetToBytecodePc w offset false : Int) = offset % 2 ^ 32 ∧
          (OffsetToBytecodePc w offset true : Int) = (offset - 1) % 2 ^ 32) ∧
      ((pc : Int) + 1 < 2 ^ 32 → (pc : Int) + 1 < 2 ^ (w - 1) →
        BytecodePcToOffset w pc false = pc ∧ BytecodePcToOffset w pc true = pc + 1) ∧
      (pc = 2 ^ 32 - 1 → BytecodePcToOffset w pc true = 0) ∧
      (w = 64 → BytecodePcToOffset w pc false = pc) := by
  unfold OffsetToBytecodePc BytecodePcToOffset intToUint32 toIntptr toSigned toUint32
  rcases hw with rfl | rfl <;>
    simp only [Bool.false_eq_true, if_false, if_true, Nat.add_one_sub_one] <;>
    refine ⟨?_, ?_, fun offset => ⟨?_, ?_⟩, fun h1 h2 => ⟨?_, ?_⟩, fun h3 => ?_,
      fun h4 => ?_⟩ <;> omega

theorem BytecodePcToOffset_OffsetToBytecodePc_values_witness :
    BytecodePcToOffset 64 100 false % 2 ^ 32 = 100 ∧
      BytecodePcToOffset 64 4294967295 true % 2 ^ 32 = (4294967295 + 1) % 2 ^ 32 ∧
      (OffsetToBytecodePc 64 0 true : Int) = (0 - 1) % 2 ^ 32 ∧
      BytecodePcToOffset 32 100 true = 100 + 1 ∧
      BytecodePcToOffset 32 4294967295 true = 0 ∧
      BytecodePcToOffset 64 4294967294 false = 4294967294 :=
  ⟨(BytecodePcToOffset_OffsetToBytecodePc_values 64 (Or.inr rfl) 100 (by decide)).1,
    (BytecodePcToOffset_OffsetToBytecodePc_values 64 (Or.inr rfl) 4294967295
      (by decide)).2.1,
    ((BytecodePcToOffset_OffsetToBytecodePc_values 64 (Or.inr rfl) 100
      (by decide)).2.2.1 0).2,
    ((BytecodePcToOffset_OffsetToBytecodePc_values 32 (Or.inl rfl) 100
      (by decide)).2.2.2.1 (by decide) (by decide)).2,
    (BytecodePcToOffset_OffsetToBytecodePc_values 32 (Or.inl rfl) 4294967295
      (by decide)).2.2.2.2.1 (by decide),
    (BytecodePcToOffset_OffsetToBytecodePc_values 64 (Or.inr rfl) 4294967294
      (by decide)).2.2.2.2.2 rfl⟩

/-! ## Names of opcodes -/

set_option maxRecDepth 100000 in
theorem opcodeValue_name :
    ∀ b : Fin 256, ∀ e ∈ entryOf b.val, opcodeValue e.name = b.val ∧ e.name ≠ "" := by
  decide!

theorem entryOf_isSome (b : Fin 256) : ∃ e, entryOf b.val = some e := by
  have h : b.val < KERNEL_BYTECODES_LIST.length := by
    have hl : KERNEL_BYTECODES_LIST.length = 256 := by decide!
    rw [hl]; exact b.isLt
  exact ⟨KERNEL_BYTECODES_LIST.get ⟨b.val, h⟩, List.get?_eq_get h⟩

theorem NameOf_eq (op : Opcode) : NameOf op = (entryOf op).map (fun e => e.name) := by
  unfold NameOf entryOf
  simp only [List.get?_eq_getElem?, List.getElem?_map]

/-- C25: for every opcode of the enumeration (values 0 to 255) `NameOf` returns a
non-empty string, and two different opcodes never have the same name. -/
theorem NameOf_injective :
    (∀ op : Opcode, op < 256 → ∃ s, NameOf op = some s ∧ s ≠ "") ∧
      ∀ a b : Opcode, a < 256 → b < 256 → NameOf a = NameOf b → a = b := by
  refine ⟨fun op h => ?_, fun a b ha hb h => ?_⟩
  · obtain ⟨e, he⟩ := entryOf_isSome ⟨op, h⟩
    exact ⟨e.name, by rw [NameOf_eq, he, Option.map_some'],
      (opcodeValue_name ⟨op, h⟩ e he).2⟩
  · obtain ⟨ea, hea⟩ := entryOf_isSome ⟨a, ha⟩
    obtain ⟨eb, heb⟩ := entryOf_isSome ⟨b, hb⟩
    have h1 := (opcodeValue_name ⟨a, ha⟩ ea hea).1
    have h2 := (opcodeValue_name ⟨b, hb⟩ eb heb).1
    have hn : ea.name = eb.name := by
      have := h
      rw [NameOf_eq, NameOf_eq] at this
      simp only at hea heb
      rw [hea, heb, Option.map_some', Option.map_some'] at this
      exact Option.some.inj this
    rw [hn] at h1
    exact h1.symm.trans h2

set_option maxRecDepth 100000 in
theorem NameOf_injective_witness :
    (∃ s, NameOf 85 = some s ∧ s ≠ "") ∧ (NameOf 85 = NameOf 85 → 85 = 85) :=
  ⟨NameOf_injective.1 85 (by decide),
    NameOf_injective.2 85 85 (by decide) (by decide)⟩

/-! ## Compact and wide pairs -/

set_option maxRecDepth 100000 in
theorem wide_entries :
    ∀ c : Fin 256, ∀ e ∈ entryOf c.val,
      (e.kind = .WIDE ∨
          e.name.data.drop (e.name.data.length - "_Wide".data.length) = "_Wide".data) →
        c.val % 2 = 1 ∧ e.kind = .WIDE ∧
          ∃ e2, e2 ∈ entryOf (c.val - 1) ∧ e2.kind = .ORDN ∧ e.name = e2.name ++ "_Wide" ∧
            e.encoding = e2.encoding ∧ e.op1 = e2.op1 ∧ e.op2 = e2.op2 ∧ e.op3 = e2.op3 := by
  decide!

theorem entryOf_lt {op : Nat} {e : BytecodeEntry} (h : entryOf op = some e) : op < 256 := by
  have hl : KERNEL_BYTECODES_LIST.length = 256 := by decide!
  unfold entryOf at h
  rw [List.get?_eq_getElem?] at h
  obtain ⟨hlt, _⟩ := List.getElem?_eq_some.mp h
  rw [hl] at hlt
  exact hlt

theorem append_right_cancel {x y s : String} (h : x ++ s = y ++ s) : x = y := by
  rw [← take_data_append x s, ← take_data_append y s, h]

theorem wide_pair (a b : Nat) (ea eb : BytecodeEntry) (ha : entryOf a = some ea)
    (hb : entryOf b = some eb) (hn : eb.name = ea.name ++ "_Wide") :
    b = a + 1 ∧ b % 2 = 1 ∧ eb.kind = .WIDE ∧ ea.kind = .ORDN ∧
      eb.encoding = ea.encoding ∧ eb.op1 = ea.op1 ∧ eb.op2 = ea.op2 ∧ eb.op3 = ea.op3 := by
  have hb256 := entryOf_lt hb
  have ha256 := entryOf_lt ha
  obtain ⟨hodd, hk, e2, he2, hk2, hn2, hrest⟩ :=
    wide_entries ⟨b, hb256⟩ eb hb (Or.inr (by rw [hn]; exact drop_data_append ea.name "_Wide"))
  have he2' : entryOf (b - 1) = some e2 := he2
  have hodd' : b % 2 = 1 := hodd
  have hname : ea.name = e2.name := append_right_cancel (hn.symm.trans hn2)
  have h1 := (opcodeValue_name ⟨a, ha256⟩ ea ha).1
  have h2 := (opcodeValue_name ⟨b - 1, by omega⟩ e2 he2').1
  have hab : a = b - 1 := by
    rw [hname] at h1
    exact h1.symm.trans h2
  have hee : ea = e2 := by
    rw [hab, he2'] at ha
    exact (Option.some.inj ha).symm
  rw [hee]
  exact ⟨by omega, hodd', hk, hk2, hrest⟩

/-- C26: every opcode of kind `WIDE` has an odd value, and the opcode numbered one less
has kind `ORDN`, the same name without the suffix `_Wide`, and an even value; and
whenever the list has entries named `X` and `X_Wide`, the value of `X_Wide` is the value
of `X` plus one, odd, the value of `X` being even. -/
theorem compact_wide_pairing :
    (∀ (op : Nat) (e : BytecodeEntry), entryOf op = some e → e.kind = .WIDE →
      op % 2 = 1 ∧ (op - 1) % 2 = 0 ∧
        ∃ e2, entryOf (op - 1) = some e2 ∧ e2.kind = .ORDN ∧ e.name = e2.name ++ "_Wide") ∧
      ∀ (a b : Nat) (ea eb : BytecodeEntry), entryOf a = some ea → entryOf b = some eb →
        eb.name = ea.name ++ "_Wide" →
          b = a + 1 ∧ b % 2 = 1 ∧ a % 2 = 0 ∧ eb.kind = .WIDE ∧ ea.kind = .ORDN := by
  refine ⟨fun op e he hk => ?_, fun a b ea eb ha hb hn => ?_⟩
  · obtain ⟨hodd, _, e2, he2, hk2, hn2, _⟩ :=
      wide_entries ⟨op, entryOf_lt he⟩ e he (Or.inl hk)
    have hodd' : op % 2 = 1 := hodd
    exact ⟨hodd', by omega, e2, he2, hk2, hn2⟩
  · obtain ⟨h1, h2, h3, h4, _⟩ := wide_pair a b ea eb ha hb hn
    exact ⟨h1, h2, by omega, h3, h4⟩

set_option maxRecDepth 100000 in
theorem compact_wide_pairing_witness :
    entryOf 159 = some (V "Jump_Wide" .T .WIDE .tgt .ign .ign) ∧
      (159 % 2 = 1 ∧ (159 - 1) % 2 = 0 ∧
        ∃ e2, entryOf (159 - 1) = some e2 ∧ e2.kind = .ORDN ∧
          (V "Jump_Wide" .T .WIDE .tgt .ign .ign).name = e2.name ++ "_Wide") ∧
      entryOf 86 = some (V "Entry" .D .ORDN .num .ign .ign) ∧
      entryOf 87 = some (V "Entry_Wide" .D .WIDE .num .ign .ign) ∧
      (87 = 86 + 1 ∧ 87 % 2 = 1 ∧ 86 % 2 = 0 ∧
        (V "Entry_Wide" .D .WIDE .num .ign .ign).kind = .WIDE ∧
        (V "Entry" .D .ORDN .num .ign .ign).kind = .ORDN) :=
  ⟨by decide,
    compact_wide_pairing.1 159 (V "Jump_Wide" .T .WIDE .tgt .ign .ign) (by decide) rfl,
    by decide, by decide,
    compact_wide_pairing.2 86 87 (V "Entry" .D .ORDN .num .ign .ign)
      (V "Entry_Wide" .D .WIDE .num .ign .ign) (by decide) (by decide) (by decide)⟩

/-- C27: whenever the bytecode list has entries named `X` and `X_Wide`, both declare
the same operand form and the same three operand roles. -/
theorem compact_wide_same_operands (a b : Nat) (ea eb : BytecodeEntry)
    (ha : entryOf a = some ea) (hb : entryOf b = some eb)
    (hn : eb.name = ea.name ++ "_Wide") :
    eb.encoding = ea.encoding ∧ eb.op1 = ea.op1 ∧ eb.op2 = ea.op2 ∧ eb.op3 = ea.op3 :=
  (wide_pair a b ea eb ha hb hn).2.2.2.2

set_option maxRecDepth 100000 in
theorem compact_wide_same_operands_witness :
    entryOf 92 = some (V "LoadConstant" .A_E .ORDN .reg .lit .ign) ∧
      entryOf 93 = some (V "LoadConstant_Wide" .A_E .WIDE .reg .lit .ign) ∧
      (V "LoadConstant_Wide" .A_E .WIDE .reg .lit .ign).encoding =
        (V "LoadConstant" .A_E .ORDN .reg .lit .ign).encoding ∧
      (V "LoadConstant_Wide" .A_E .WIDE .reg .lit .ign).op1 =
        (V "LoadConstant" .A_E .ORDN .reg .lit .ign).op1 :=
  ⟨by decide, by decide,
    (compact_wide_same_operands 92 93 (V "LoadConstant" .A_E .ORDN .reg .lit .ign)
      (V "LoadConstant_Wide" .A_E .WIDE .reg .lit .ign) (by decide) (by decide)
      (by decide)).1,
    (compact_wide_same_operands 92 93 (V "LoadConstant" .A_E .ORDN .reg .lit .ign)
      (V "LoadConstant_Wide" .A_E .WIDE .reg .lit .ign) (by decide) (by decide)
      (by decide)).2.1⟩

/-! ## Instruction sizes -/

set_option maxRecDepth 100000 in
theorem old_entries :
    ∀ b : Fin 256, ∀ e ∈ entryOf b.val,
      (b.val < 85 ↔ (e.kind = .OLD ∨ e.name = "Unused00_Old")) ∧
        (b.val < 85 ↔
          e.name.data.drop (e.name.data.length - "_Old".data.length) = "_Old".data) := by
  decide!

/-- C29 fails on the reserved slot `Unused00_Old`: its value 40 is below `kTrap`, so
`IsOld` holds, and its declared kind is `RESV`, not `OLD`. -/
theorem IsOld_Unused00_Old :
    IsOld (memoryOf [40, 0, 0, 0]) 0 = true ∧
      entryOf (DecodeOpcode (memoryOf [40, 0, 0, 0]) 0) =
        some (V "Unused00_Old" .zero .RESV .num .num .ign) ∧
      (V "Unused00_Old" .zero .RESV .num .num .ign).kind ≠ .OLD := by
  decide!

/-- C29, amended: for every opcode, `IsOld` (value below `kTrap`) holds exactly when
the opcode's declared kind is `OLD` or the opcode is the reserved slot `Unused00_Old`,
which is exactly when its name ends in `_Old`; every opcode of kind `OLD` has a value
below `kTrap` and no value at or above `kTrap` has kind `OLD`. -/
theorem IsOld_iff_old_entry (mem : Memory) (instr : Int) (e : BytecodeEntry)
    (he : entryOf (DecodeOpcode mem instr) = some e) :
    (IsOld mem instr = true ↔ (e.kind = .OLD ∨ e.name = "Unused00_Old")) ∧
      (IsOld mem instr = true ↔
        e.name.data.drop (e.name.data.length - "_Old".data.length) = "_Old".data) ∧
      (e.kind = .OLD → DecodeOpcode mem instr < kTrap) ∧
      (kTrap ≤ DecodeOpcode mem instr → e.kind ≠ .OLD) := by
  have h := old_entries (mem (instr + 0)) e he
  have hlt : IsOld mem instr = true ↔ (mem (instr + 0)).val < 85 := by
    rw [IsOld_iff, kTrap_eq]; rfl
  refine ⟨hlt.trans h.1, hlt.trans h.2, fun hk => ?_, fun hge hk => ?_⟩
  · rw [kTrap_eq]
    exact h.1.mpr (Or.inl hk)
  · rw [kTrap_eq] at hge
    exact absurd (h.1.mpr (Or.inl hk)) (Nat.not_lt.mpr hge)

set_option maxRecDepth 100000 in
theorem IsOld_iff_old_entry_witness :
    entryOf (DecodeOpcode (memoryOf [31, 0, 1, 0]) 0) =
        some (V "Jump_Old" .T .OLD .tgt .ign .ign) ∧
      (IsOld (memoryOf [31, 0, 1, 0]) 0 = true ↔
        ((V "Jump_Old" .T .OLD .tgt .ign .ign).kind = .OLD ∨
          (V "Jump_Old" .T .OLD .tgt .ign .ign).name = "Unused00_Old")) ∧
      DecodeOpcode (memoryOf [31, 0, 1, 0]) 0 < kTrap :=
  ⟨by decide,
    (IsOld_iff_old_entry (memoryOf [31, 0, 1, 0]) 0 (V "Jump_Old" .T .OLD .tgt .ign .ign)
      (by decide)).1,
    (IsOld_iff_old_entry (memoryOf [31, 0, 1, 0]) 0 (V "Jump_Old" .T .OLD .tgt .ign .ign)
      (by decide)).2.2.1 rfl⟩

/-! ## Bytes read by the decoders -/

theorem wide_bit_iff (op : Nat) : ((op &&& kWideModifier) != 0) = true ↔ op % 2 = 1 := by
  simp [kWideModifier]

theorem byteAt_congr (mem mem2 : Memory) (bc : Int) (R : List Nat)
    (h : ∀ i ∈ R, mem2 (bc + (i : Int)) = mem (bc + (i : Int))) (i : Nat) (hi : i ∈ R) :
    byteAt mem2 bc i = byteAt mem bc i := by
  unfold byteAt
  rw [h i hi]

theorem DecodeY_eq (mem : Memory) (bc : Int) :
    DecodeY mem bc =
      if byteAt mem bc 0 < kTrap then toInt16 (byteAt mem bc 2 + 256 * byteAt mem bc 3)
      else if byteAt mem bc 0 % 2 = 1 then
        toInt32 (byteAt mem bc 2 + 2 ^ 8 * byteAt mem bc 3 + 2 ^ 16 * byteAt mem bc 4 +
          2 ^ 24 * byteAt mem bc 5)
      else toInt8 (byteAt mem bc 2) := by
  unfold DecodeY
  simp only [IsOld_iff, IsWide_iff]
  rw [le16_eq _ _ (byteAt_lt mem bc 2) (byteAt_lt mem bc 3),
    le32_eq _ _ _ _ (byteAt_lt mem bc 2) (byteAt_lt mem bc 3) (byteAt_lt mem bc 4)
      (byteAt_lt mem bc 5)]

theorem DecodeT_byteAt (mem : Memory) (bc : Int) :
    DecodeT mem bc =
      if byteAt mem bc 0 < kTrap then
        toInt32 (byteAt mem bc 1 * 2 ^ 8 + byteAt mem bc 2 * 2 ^ 16 +
          byteAt mem bc 3 * 2 ^ 24) / 2 ^ 6
      else if byteAt mem bc 0 % 2 = 1 then
        toInt32 (byteAt mem bc 1 * 2 ^ 8 + byteAt mem bc 2 * 2 ^ 16 +
          byteAt mem bc 3 * 2 ^ 24) / 2 ^ 8
      else toInt8 (byteAt mem bc 1) := by
  by_cases h1 : byteAt mem bc 0 < kTrap
  · rw [if_pos h1, DecodeT_old mem bc h1]
  · by_cases h2 : byteAt mem bc 0 % 2 = 1
    · rw [if_neg h1, if_pos h2, DecodeT_wide mem bc h1 h2]
    · rw [if_neg h1, if_neg h2, DecodeT_compact mem bc h1 h2]

theorem DecodeD_congr (mem mem2 : Memory) (bc : Int)
    (h : ∀ i ∈ DecodeD_reads (byteAt mem bc 0), mem2 (bc + (i : Int)) = mem (bc + (i : Int))) :
    DecodeD mem2 bc = DecodeD mem bc ∧ DecodeX mem2 bc = DecodeX mem bc := by
  have hb := byteAt_congr mem mem2 bc _ h
  unfold DecodeD_reads at hb
  simp only [wide_bit_iff] at hb
  rw [DecodeD_eq, DecodeD_eq, DecodeX_eq, DecodeX_eq]
  by_cases h1 : byteAt mem bc 0 < kTrap
  · rw [if_pos h1] at hb
    have e0 := hb 0 (by decide)
    have e2 := hb 2 (by decide)
    have e3 := hb 3 (by decide)
    simp only [Nat.cast_ofNat, Nat.cast_zero] at e0 e2 e3
    simp only [e0, e2, e3, h1, if_true, and_self]
  · by_cases h2 : byteAt mem bc 0 % 2 = 1
    · rw [if_neg h1, if_pos h2] at hb
      have e0 := hb 0 (by decide)
      have e1 := hb 1 (by decide)
      have e2 := hb 2 (by decide)
      have e3 := hb 3 (by decide)
      have e4 := hb 4 (by decide)
      simp only [Nat.cast_ofNat, Nat.cast_zero, Nat.cast_one] at e0 e1 e2 e3 e4
      simp only [e0, e1, e2, e3, e4, h1, h2, if_true, if_false, and_self]
    · rw [if_neg h1, if_neg h2] at hb
      have e0 := hb 0 (by decide)
      have e1 := hb 1 (by decide)
      simp only [Nat.cast_zero, Nat.cast_one] at e0 e1
      simp only [e0, e1, h1, h2, if_false, and_self]

theorem DecodeT_congr (mem mem2 : Memory) (bc : Int)
    (h : ∀ i ∈ DecodeT_reads (byteAt mem bc 0), mem2 (bc + (i : Int)) = mem (bc + (i : Int))) :
    DecodeT mem2 bc = DecodeT mem bc := by
  have hb := byteAt_congr mem mem2 bc _ h
  unfold DecodeT_reads at hb
  simp only [wide_bit_iff] at hb
  rw [DecodeT_byteAt, DecodeT_byteAt]
  by_cases h1 : byteAt mem bc 0 < kTrap
  · rw [if_pos h1] at hb
    have e0 := hb 0 (by decide)
    have e1 := hb 1 (by decide)
    have e2 := hb 2 (by decide)
    have e3 := hb 3 (by decide)
    simp only [Nat.cast_ofNat, Nat.cast_zero, Nat.cast_one] at e0 e1 e2 e3
    simp only [e0, e1, e2, e3, h1, if_true]
  · by_cases h2 : byteAt mem bc 0 % 2 = 1
    · rw [if_neg h1, if_pos h2] at hb
      have e0 := hb 0 (by decide)
      have e1 := hb 1 (by decide)
      have e2 := hb 2 (by decide)
      have e3 := hb 3 (by decide)
      simp only [Nat.cast_ofNat, Nat.cast_zero, Nat.cast_one] at e0 e1 e2 e3
      simp only [e0, e1, e2, e3, h1, h2, if_true, if_false]
    · rw [if_neg h1, if_neg h2] at hb
      have e0 := hb 0 (by decide)
      have e1 := hb 1 (by decide)
      simp only [Nat.cast_zero, Nat.cast_one] at e0 e1
      simp only [e0, e1, h1, h2, if_false]

theorem DecodeE_congr (mem mem2 : Memory) (bc : Int)
    (h : ∀ i ∈ DecodeE_reads (byteAt mem bc 0), mem2 (bc + (i : Int)) = mem (bc + (i : Int))) :
    DecodeE mem2 bc = DecodeE mem bc ∧ DecodeY mem2 bc = DecodeY mem bc := by
  have hb := byteAt_congr mem mem2 bc _ h
  unfold DecodeE_reads at hb
  simp only [wide_bit_iff] at hb
  rw [DecodeE_eq, DecodeE_eq, DecodeY_eq, DecodeY_eq]
  by_cases h1 : byteAt mem bc 0 < kTrap
  · rw [if_pos h1] at hb
    have e0 := hb 0 (by decide)
    have e2 := hb 2 (by decide)
    have e3 := hb 3 (by decide)
    simp only [Nat.cast_ofNat, Nat.cast_zero] at e0 e2 e3
    simp only [e0, e2, e3, h1, if_true, and_self]
  · by_cases h2 : byteAt mem bc 0 % 2 = 1
    · rw [if_neg h1, if_pos h2] at hb
      have e0 := hb 0 (by decide)
      have e2 := hb 2 (by decide)
      have e3 := hb 3 (by decide)
      have e4 := hb 4 (by decide)
      have e5 := hb 5 (by decide)
      simp only [Nat.cast_ofNat, Nat.cast_zero] at e0 e2 e3 e4 e5
      simp only [e0, e2, e3, e4, e5, h1, h2, if_true, if_false, and_self]
    · rw [if_neg h1, if_neg h2] at hb
      have e0 := hb 0 (by decide)
      have e2 := hb 2 (by decide)
      simp only [Nat.cast_ofNat, Nat.cast_zero] at e0 e2
      simp only [e0, e2, h1, h2, if_false, and_self]

theorem DecodeF_congr (mem mem2 : Memory) (bc : Int)
    (h : ∀ i ∈ DecodeF_reads (byteAt mem bc 0), mem2 (bc + (i : Int)) = mem (bc + (i : Int))) :
    DecodeF mem2 bc = DecodeF mem bc := by
  have hb := byteAt_congr mem mem2 bc _ h
  unfold DecodeF_reads at hb h
  simp only [wide_bit_iff] at hb h
  rw [DecodeF_eq, DecodeF_eq]
  by_cases h1 : byteAt mem bc 0 < kTrap
  · rw [if_pos h1] at hb h
    have e0 := hb 0 (by decide)
    have e1 := h 1 (by decide)
    simp only [Nat.cast_zero, Nat.cast_one] at e0 e1
    simp only [e0, e1, h1, if_true]
  · by_cases h2 : byteAt mem bc 0 % 2 = 1
    · rw [if_neg h1, if_pos h2] at hb h
      have e0 := hb 0 (by decide)
      have e5 := h 5 (by decide)
      simp only [Nat.cast_ofNat, Nat.cast_zero] at e0 e5
      simp only [e0, e5, h1, h2, if_true, if_false]
    · rw [if_neg h1, if_neg h2] at hb h
      have e0 := hb 0 (by decide)
      have e2 := h 2 (by decide)
      simp only [Nat.cast_ofNat, Nat.cast_zero] at e0 e2
      simp only [e0, e2, h1, h2, if_false]

set_option maxRecDepth 100000 in
theorem reads_inside :
    ∀ b : Fin 256, ∀ e ∈ entryOf b.val, ∀ n ∈ layoutLength e.kind e.encoding,
      ∀ i ∈ formReads e.encoding b.val, i < n := by
  decide!

theorem formReads_A (form : OperandForm) (op i : Nat)
    (h : form ∈ [.A, .A_D, .A_X, .A_E, .A_Y, .A_B_C]) (hi : i ∈ DecodeA_reads) :
    i ∈ formReads form op := by
  simp only [List.mem_cons, List.not_mem_nil, or_false] at h
  rcases h with rfl | rfl | rfl | rfl | rfl | rfl <;>
    simp only [formReads, List.mem_append, hi, true_or]

theorem formReads_D (form : OperandForm) (op i : Nat)
    (h : form ∈ [.D, .X, .A_D, .A_X, .D_F]) (hi : i ∈ DecodeD_reads op) :
    i ∈ formReads form op := by
  simp only [List.mem_cons, List.not_mem_nil, or_false] at h
  rcases h with rfl | rfl | rfl | rfl | rfl <;>
    simp only [formReads, List.mem_append, hi, true_or, or_true]

theorem formReads_E (form : OperandForm) (op i : Nat)
    (h : form ∈ [.A_E, .A_Y]) (hi : i ∈ DecodeE_reads op) :
    i ∈ formReads form op := by
  simp only [List.mem_cons, List.not_mem_nil, or_false] at h
  rcases h with rfl | rfl <;> simp only [formReads, List.mem_append, hi, or_true]

/-- C30 fails on the wide forms `A_E` and `A_Y`: in `EntryFixed_Wide`, whose length by
the size rule is 5, `DecodeE` reads the byte `bc[5]`, and two instructions equal on
their first 5 bytes decode to different `E` operands. -/
theorem DecodeE_reads_past_specSizeRule :
    entryOf (DecodeOpcode (memoryOf [89, 1, 0, 0, 0, 0]) 0) =
        some (V "EntryFixed_Wide" .A_E .WIDE .num .num .ign) ∧
      specSizeRule .WIDE .A_E = some 5 ∧
      5 ∈ formReads .A_E (DecodeOpcode (memoryOf [89, 1, 0, 0, 0, 0]) 0) ∧
      (∀ i : Nat, i < 5 →
        memoryOf [89, 1, 0, 0, 0, 1] (0 + (i : Int)) =
          memoryOf [89, 1, 0, 0, 0, 0] (0 + (i : Int))) ∧
      DecodeE (memoryOf [89, 1, 0, 0, 0, 1]) 0 ≠ DecodeE (memoryOf [89, 1, 0, 0, 0, 0]) 0 := by
  decide!

/-- C30, amended: with the instruction lengths of the documented layouts (old 4;
compact 1, 2, 3 or 4 by form; wide 4 for T, 5 for D and X, 6 for A_E, A_Y and D_F),
every byte index read by a field decoder that applies to the opcode's operand form is
below the instruction's length, so the decoded fields depend only on the bytes of the
instruction. -/
theorem decoders_inside_instruction (mem : Memory) (bc : Int) (e : BytecodeEntry) (n : Nat)
    (he : entryOf (DecodeOpcode mem bc) = some e)
    (hn : layoutLength e.kind e.encoding = some n) :
    (∀ i ∈ formReads e.encoding (DecodeOpcode mem bc), i < n) ∧
      ∀ mem2 : Memory, (∀ i : Nat, i < n → mem2 (bc + (i : Int)) = mem (bc + (i : Int))) →
        (e.encoding ∈ [.A, .A_D, .A_X, .A_E, .A_Y, .A_B_C] →
          DecodeA mem2 bc = DecodeA mem bc) ∧
        (e.encoding ∈ [.D, .A_D, .D_F] → DecodeD mem2 bc = DecodeD mem bc) ∧
        (e.encoding ∈ [.X, .A_X] → DecodeX mem2 bc = DecodeX mem bc) ∧
        (e.encoding = .T → DecodeT mem2 bc = DecodeT mem bc) ∧
        (e.encoding = .A_E → DecodeE mem2 bc = DecodeE mem bc) ∧
        (e.encoding = .A_Y → DecodeY mem2 bc = DecodeY mem bc) ∧
        (e.encoding = .D_F → DecodeF mem2 bc = DecodeF mem bc) ∧
        (e.encoding = .A_B_C →
          DecodeB mem2 bc = DecodeB mem bc ∧ DecodeC mem2 bc = DecodeC mem bc) := by
  have hin : ∀ i ∈ formReads e.encoding (byteAt mem bc 0), i < n :=
    reads_inside (mem (bc + 0)) e he n hn
  refine ⟨hin, fun mem2 hag => ?_⟩
  have hR : ∀ i ∈ formReads e.encoding (byteAt mem bc 0),
      mem2 (bc + (i : Int)) = mem (bc + (i : Int)) := fun i hi => hag i (hin i hi)
  refine ⟨fun hf => ?_, fun hf => ?_, fun hf => ?_, fun hf => ?_, fun hf => ?_, fun hf => ?_,
    fun hf => ?_, fun hf => ?_⟩
  · exact hR 1 (formReads_A _ _ 1 hf (by decide))
  · refine (DecodeD_congr mem mem2 bc fun i hi => hR i (formReads_D _ _ i ?_ hi)).1
    simp only [List.mem_cons, List.not_mem_nil, or_false] at hf ⊢
    rcases hf with hf | hf | hf <;> simp only [hf, true_or, or_true]
  · refine (DecodeD_congr mem mem2 bc fun i hi => hR i (formReads_D _ _ i ?_ hi)).2
    simp only [List.mem_cons, List.not_mem_nil, or_false] at hf ⊢
    rcases hf with hf | hf <;> simp only [hf, true_or, or_true]
  · refine DecodeT_congr mem mem2 bc fun i hi => hR i ?_
    rw [hf]; exact hi
  · exact (DecodeE_congr mem mem2 bc fun i hi =>
      hR i (formReads_E _ _ i (by rw [hf]; decide) hi)).1
  · exact (DecodeE_congr mem mem2 bc fun i hi =>
      hR i (formReads_E _ _ i (by rw [hf]; decide) hi)).2
  · refine DecodeF_congr mem mem2 bc fun i hi => hR i ?_
    rw [hf]
    exact List.mem_append_right _ hi
  · have h2 : 2 ∈ formReads e.encoding (byteAt mem bc 0) := by
      rw [hf]
      exact List.mem_append_left _ (List.mem_append_right _ (by decide))
    have h3 : 3 ∈ formReads e.encoding (byteAt mem bc 0) := by
      rw [hf]
      exact List.mem_append_right _ (by decide)
    exact ⟨hR 2 h2, hR 3 h3⟩

set_option maxRecDepth 100000 in
theorem decoders_inside_instruction_witness :
    entryOf (DecodeOpcode (memoryOf [89, 1, 0, 0, 0, 1]) 0) =
        some (V "EntryFixed_Wide" .A_E .WIDE .num .num .ign) ∧
      layoutLength (V "EntryFixed_Wide" .A_E .WIDE .num .num .ign).kind
          (V "EntryFixed_Wide" .A_E .WIDE .num .num .ign).encoding = some 6 ∧
      (∀ i ∈ formReads (V "EntryFixed_Wide" .A_E .WIDE .num .num .ign).encoding
          (DecodeOpcode (memoryOf [89, 1, 0, 0, 0, 1]) 0), i < 6) ∧
      DecodeE (memoryOf [89, 1, 0, 0, 0, 1, 7]) 0 = DecodeE (memoryOf [89, 1, 0, 0, 0, 1]) 0 :=
  ⟨by decide, rfl,
    (decoders_inside_instruction (memoryOf [89, 1, 0, 0, 0, 1]) 0
      (V "EntryFixed_Wide" .A_E .WIDE .num .num .ign) 6 (by decide) rfl).1,
    ((decoders_inside_instruction (memoryOf [89, 1, 0, 0, 0, 1]) 0
      (V "EntryFixed_Wide" .A_E .WIDE .num .num .ign) 6 (by decide) rfl).2
      (memoryOf [89, 1, 0, 0, 0, 1, 7]) (by decide)).2.2.2.2.1 rfl⟩

/-! ## Call instructions of the ordinary era -/

set_option maxRecDepth 100000 in
theorem D_F_names :
    ∀ b : Fin 256, ∀ e ∈ entryOf b.val,
      (e.encoding = .D_F ↔
        e.name ∈ ["DirectCall", "DirectCall_Wide", "InterfaceCall", "InterfaceCall_Wide",
          "UncheckedInterfaceCall", "UncheckedInterfaceCall_Wide", "DynamicCall",
          "DynamicCall_Wide"]) ∧
      (e.encoding = .D_F ↔ b.val ∈ [176, 177, 180, 181, 188, 189, 190, 191]) := by
  decide!

/-- C31: an opcode of the bytecode list declares operand form `D_F` exactly when it is
one of `DirectCall`, `InterfaceCall`, `UncheckedInterfaceCall`, `DynamicCall` or their
`_Wide` variants, that is exactly when its value is one of the eight enumerators of
these names. -/
theorem D_F_iff_call (op : Nat) (e : BytecodeEntry) (he : entryOf op = some e) :
    (e.encoding = .D_F ↔
        e.name ∈ ["DirectCall", "DirectCall_Wide", "InterfaceCall", "InterfaceCall_Wide",
          "UncheckedInterfaceCall", "UncheckedInterfaceCall_Wide", "DynamicCall",
          "DynamicCall_Wide"]) ∧
      (e.encoding = .D_F ↔
        op ∈ [kDirectCall, kDirectCall_Wide, kInterfaceCall, kInterfaceCall_Wide,
          kUncheckedInterfaceCall, kUncheckedInterfaceCall_Wide, kDynamicCall,
          kDynamicCall_Wide]) := by
  have hv : [kDirectCall, kDirectCall_Wide, kInterfaceCall, kInterfaceCall_Wide,
      kUncheckedInterfaceCall, kUncheckedInterfaceCall_Wide, kDynamicCall,
      kDynamicCall_Wide] = [176, 177, 180, 181, 188, 189, 190, 191] := by decide!
  have h := D_F_names ⟨op, entryOf_lt he⟩ e he
  rw [hv]
  exact h

set_option maxRecDepth 100000 in
theorem D_F_iff_call_witness :
    entryOf 188 = some (V "UncheckedInterfaceCall" .D_F .ORDN .num .num .ign) ∧
      ((V "UncheckedInterfaceCall" .D_F .ORDN .num .num .ign).encoding = .D_F ↔
        188 ∈ [kDirectCall, kDirectCall_Wide, kInterfaceCall, kInterfaceCall_Wide,
          kUncheckedInterfaceCall, kUncheckedInterfaceCall_Wide, kDynamicCall,
          kDynamicCall_Wide]) ∧
      entryOf 72 = some (V "DirectCall_Old" .A_D .OLD .num .num .ign) ∧
      ((V "DirectCall_Old" .A_D .OLD .num .num .ign).encoding = .D_F ↔
        (V "DirectCall_Old" .A_D .OLD .num .num .ign).name ∈
          ["DirectCall", "DirectCall_Wide", "InterfaceCall", "InterfaceCall_Wide",
            "UncheckedInterfaceCall", "UncheckedInterfaceCall_Wide", "DynamicCall",
            "DynamicCall_Wide"]) :=
  ⟨by decide,
    (D_F_iff_call 188 (V "UncheckedInterfaceCall" .D_F .ORDN .num .num .ign)
      (by decide)).2,
    by decide,
    (D_F_iff_call 72 (V "DirectCall_Old" .A_D .OLD .num .num .ign) (by decide)).1⟩

/-! ## Assertions of DecodeArgc_Old -/

/-- C32: every opcode accepted by `IsCallOpcode_Old`, and the opcode `NativeCall_Old`,
is below `kTrap`; so when the instruction at `ret - 4` is an old call or
`NativeCall_Old`, `ASSERT(IsOld(call))` passes, `DecodeArgc_Old` returns a value in a
debug build, and `ASSERT(IsCallOpcode_Old(call))` passes when the opcode is not
`NativeCall_Old`; on `NativeCall_Old` that assertion would fail, and it is not reached. -/
theorem DecodeArgc_Old_assertions (mem : Memory) (ret : Int)
    (h : IsCallOpcode_Old mem (ret - 4) = true ∨
      DecodeOpcode mem (ret - 4) = kNativeCall_Old) :
    DecodeOpcode mem (ret - 4) < kTrap ∧
      ASSERT true (IsOld mem (ret - 4)) = some () ∧
      (DecodeOpcode mem (ret - 4) ≠ kNativeCall_Old →
        ASSERT true (IsCallOpcode_Old mem (ret - 4)) = some ()) ∧
      (DecodeOpcode mem (ret - 4) = kNativeCall_Old →
        ASSERT true (IsCallOpcode_Old mem (ret - 4)) = none) ∧
      (DecodeArgc_Old true mem ret).isSome = true := by
  have hval : byteAt mem (ret - 4) 0 ∈ [72, 41, 74, 42] ∨ byteAt mem (ret - 4) 0 = 43 := by
    rcases h with h | h
    · rw [IsCallOpcode_Old_eq] at h
      exact Or.inl (List.elem_iff.mp h)
    · rw [call_enumerators.2.2.2] at h
      exact Or.inr h
  have hlt : byteAt mem (ret - 4) 0 < 85 := by
    simp only [List.mem_cons, List.not_mem_nil, or_false] at hval
    omega
  have hold : IsOld mem (ret - 4) = true := by
    rw [IsOld_iff, kTrap_eq]
    exact hlt
  refine ⟨?_, ?_, fun hne => ?_, fun heq => ?_, ?_⟩
  · rw [kTrap_eq]
    exact hlt
  · simp only [ASSERT, hold, Bool.not_true, Bool.and_false, Bool.false_eq_true, if_false]
  · have hc : IsCallOpcode_Old mem (ret - 4) = true := by
      rcases h with h | h
      · exact h
      · exact absurd h hne
    simp only [ASSERT, hc, Bool.not_true, Bool.and_false, Bool.false_eq_true, if_false]
  · have hc : IsCallOpcode_Old mem (ret - 4) = false := by
      rw [call_enumerators.2.2.2] at heq
      have heq' : byteAt mem (ret - 4) 0 = 43 := heq
      rw [IsCallOpcode_Old_eq, heq']
      decide
    simp only [ASSERT, hc, Bool.not_false, Bool.and_true, if_true]
  · rcases hval with hv | hv
    · rw [DecodeArgc_Old_of_call true mem ret hv]
      rfl
    · rw [DecodeArgc_Old_of_native true mem ret hv]
      rfl

set_option maxRecDepth 100000 in
theorem DecodeArgc_Old_assertions_witness :
    IsCallOpcode_Old (memoryOf [72, 2, 5, 0]) (4 - 4) = true ∧
      DecodeOpcode (memoryOf [72, 2, 5, 0]) (4 - 4) < kTrap ∧
      ASSERT true (IsCallOpcode_Old (memoryOf [72, 2, 5, 0]) (4 - 4)) = some () ∧
      DecodeOpcode (memoryOf [43, 9, 0, 0]) (4 - 4) = kNativeCall_Old ∧
      ASSERT true (IsCallOpcode_Old (memoryOf [43, 9, 0, 0]) (4 - 4)) = none ∧
      (DecodeArgc_Old true (memoryOf [43, 9, 0, 0]) 4).isSome = true :=
  ⟨by decide,
    (DecodeArgc_Old_assertions (memoryOf [72, 2, 5, 0]) 4 (Or.inl (by decide))).1,
    (DecodeArgc_Old_assertions (memoryOf [72, 2, 5, 0]) 4 (Or.inl (by decide))).2.2.1
      (by decide),
    by decide,
    (DecodeArgc_Old_assertions (memoryOf [43, 9, 0, 0]) 4 (Or.inr (by decide))).2.2.2.1
      (by decide),
    (DecodeArgc_Old_assertions (memoryOf [43, 9, 0, 0]) 4 (Or.inr (by decide))).2.2.2.2⟩

/-! ## Layout selected by the decoders -/

set_option maxRecDepth 100000 in
theorem width_entries :
    ∀ b : Fin 256, ∀ e ∈ entryOf b.val, 85 ≤ b.val →
      e.encoding ∈ [.D, .X, .T, .A_E, .A_Y, .D_F] →
        (b.val % 2 = 1 ↔ e.kind = .WIDE) ∧ (¬ b.val % 2 = 1 ↔ e.kind = .ORDN) := by
  decide!

/-- C33: for an opcode at or above `kTrap` whose operand form is D, X, T, A_E, A_Y or
D_F, `IsWide` holds exactly when the declared kind is `WIDE` and fails exactly when it
is `ORDN`; so `DecodeD`, `DecodeX`, `DecodeT`, `DecodeE`, `DecodeY` and `DecodeF` read
the wide layout on the `WIDE` opcodes and the compact layout on the `ORDN` opcodes. -/
theorem decoders_select_declared_layout (mem : Memory) (bc : Int) (e : BytecodeEntry)
    (he : entryOf (DecodeOpcode mem bc) = some e) (hT : kTrap ≤ DecodeOpcode mem bc)
    (hf : e.encoding ∈ [.D, .X, .T, .A_E, .A_Y, .D_F]) :
    (IsWide mem bc = true ↔ e.kind = .WIDE) ∧
      (IsWide mem bc = false ↔ e.kind = .ORDN) ∧
      IsOld mem bc = false ∧
      (e.kind = .WIDE →
        DecodeD mem bc =
            byteAt mem bc 1 + 2 ^ 8 * byteAt mem bc 2 + 2 ^ 16 * byteAt mem bc 3 +
              2 ^ 24 * byteAt mem bc 4 ∧
          DecodeX mem bc =
            toInt32 (byteAt mem bc 1 + 2 ^ 8 * byteAt mem bc 2 + 2 ^ 16 * byteAt mem bc 3 +
              2 ^ 24 * byteAt mem bc 4) ∧
          DecodeT mem bc =
            toInt32 (byteAt mem bc 1 * 2 ^ 8 + byteAt mem bc 2 * 2 ^ 16 +
              byteAt mem bc 3 * 2 ^ 24) / 2 ^ 8 ∧
          DecodeE mem bc =
            byteAt mem bc 2 + 2 ^ 8 * byteAt mem bc 3 + 2 ^ 16 * byteAt mem bc 4 +
              2 ^ 24 * byteAt mem bc 5 ∧
          DecodeY mem bc =
            toInt32 (byteAt mem bc 2 + 2 ^ 8 * byteAt mem bc 3 + 2 ^ 16 * byteAt mem bc 4 +
              2 ^ 24 * byteAt mem bc 5) ∧
          DecodeF mem bc = mem (bc + 5)) ∧
      (e.kind = .ORDN →
        DecodeD mem bc = byteAt mem bc 1 ∧
          DecodeX mem bc = toInt8 (byteAt mem bc 1) ∧
          DecodeT mem bc = toInt8 (byteAt mem bc 1) ∧
          DecodeE mem bc = byteAt mem bc 2 ∧
          DecodeY mem bc = toInt8 (byteAt mem bc 2) ∧
          DecodeF mem bc = mem (bc + 2)) := by
  have hge : 85 ≤ byteAt mem bc 0 := by
    rw [kTrap_eq] at hT
    exact hT
  have hw := width_entries (mem (bc + 0)) e he hge hf
  have hodd : byteAt mem bc 0 % 2 = 1 ↔ e.kind = .WIDE := hw.1
  have heven : ¬ byteAt mem bc 0 % 2 = 1 ↔ e.kind = .ORDN := hw.2
  have hnot : ¬ byteAt mem bc 0 < kTrap := by
    rw [kTrap_eq]
    exact Nat.not_lt.mpr hge
  refine ⟨(IsWide_iff mem bc).trans hodd, ?_, ?_, fun hk => ?_, fun hk => ?_⟩
  · rw [← heven, ← IsWide_iff, Bool.not_eq_true]
  · rw [← Bool.not_eq_true, IsOld_iff]
    exact hnot
  · have h1 := hodd.mpr hk
    rw [DecodeD_eq, DecodeX_eq, DecodeT_byteAt, DecodeE_eq, DecodeY_eq, DecodeF_eq]
    simp only [if_neg hnot, if_pos h1, and_self]
  · have h1 := heven.mpr hk
    rw [DecodeD_eq, DecodeX_eq, DecodeT_byteAt, DecodeE_eq, DecodeY_eq, DecodeF_eq]
    simp only [if_neg hnot, if_neg h1, and_self]

set_option maxRecDepth 100000 in
theorem decoders_select_declared_layout_witness :
    entryOf (DecodeOpcode (memoryOf [93, 1, 2, 0, 0, 0]) 0) =
        some (V "LoadConstant_Wide" .A_E .WIDE .reg .lit .ign) ∧
      (IsWide (memoryOf [93, 1, 2, 0, 0, 0]) 0 = true ↔
        (V "LoadConstant_Wide" .A_E .WIDE .reg .lit .ign).kind = .WIDE) ∧
      entryOf (DecodeOpcode (memoryOf [92, 1, 2]) 0) =
        some (V "LoadConstant" .A_E .ORDN .reg .lit .ign) ∧
      DecodeE (memoryOf [92, 1, 2]) 0 = byteAt (memoryOf [92, 1, 2]) 0 2 :=
  ⟨by decide,
    (decoders_select_declared_layout (memoryOf [93, 1, 2, 0, 0, 0]) 0
      (V "LoadConstant_Wide" .A_E .WIDE .reg .lit .ign) (by decide) (by decide)
      (by decide)).1,
    by decide,
    ((decoders_select_declared_layout (memoryOf [92, 1, 2]) 0
      (V "LoadConstant" .A_E .ORDN .reg .lit .ign) (by decide) (by decide)
      (by decide)).2.2.2.2 rfl).2.2.2.1⟩

/-! ## Completeness of the enumeration -/

/-- C34: the bytecode list has exactly 256 entries, the enumerator of each entry is its
position 0..255, and `kTrap` is 85; so for every instruction the opcode byte is a
declared opcode and `NameOf` indexes inside the name table. -/
theorem opcode_enumeration_complete :
    KERNEL_BYTECODES_LIST.length = 256 ∧ kTrap = 85 ∧
      (∀ op : Nat, op < 256 → ∃ e, entryOf op = some e ∧ opcodeValue e.name = op) ∧
      ∀ (mem : Memory) (bc : Int),
        DecodeOpcode mem bc < KERNEL_BYTECODES_LIST.length ∧
          DecodeOpcode mem bc < (KERNEL_BYTECODES_LIST.map BytecodeEntry.name).length ∧
          (entryOf (DecodeOpcode mem bc)).isSome = true ∧
          (NameOf (DecodeOpcode mem bc)).isSome = true := by
  have hl : KERNEL_BYTECODES_LIST.length = 256 := by decide!
  refine ⟨hl, kTrap_eq, fun op h => ?_, fun mem bc => ?_⟩
  · obtain ⟨e, he⟩ := entryOf_isSome ⟨op, h⟩
    exact ⟨e, he, (opcodeValue_name ⟨op, h⟩ e he).1⟩
  · obtain ⟨e, he⟩ := entryOf_isSome (mem (bc + 0))
    have he2 : entryOf (DecodeOpcode mem bc) = some e := he
    have hlt : DecodeOpcode mem bc < 256 := (mem (bc + 0)).isLt
    refine ⟨by rw [hl]; exact hlt, by rw [List.length_map, hl]; exact hlt, ?_, ?_⟩
    · rw [he2]; rfl
    · rw [NameOf_eq, he2]; rfl

theorem opcode_enumeration_complete_witness :
    (∃ e, entryOf 85 = some e ∧ opcodeValue e.name = 85) ∧
      (NameOf (DecodeOpcode (memoryOf [255]) 0)).isSome = true :=
  ⟨opcode_enumeration_complete.2.2.1 85 (by decide),
    (opcode_enumeration_complete.2.2.2 (memoryOf [255]) 0).2.2.2⟩

/-! ## Reserved slots -/

set_option maxRecDepth 100000 in
theorem reserved_values :
    ∀ b : Fin 256, ∀ e ∈ entryOf b.val, e.kind = .RESV →
      [31, 32, 33, 34, 35, 36, 37, 38, 39, 158, 159, 160, 161, 162, 163, 164, 165, 166, 167,
          168, 169, 170, 171, 172, 173, 174, 175].contains b.val = false ∧
        [92, 93, 4].contains b.val = false ∧ [98, 7].contains b.val = false ∧
        [90, 3].contains b.val = false ∧ [94, 95, 5].contains b.val = false ∧
        [213, 53].contains b.val = false ∧ [72, 41, 74, 42].contains b.val = false ∧
        [192, 193, 43].contains b.val = false ∧
        [98, 176, 180, 188, 190, 194].contains b.val = false := by
  decide!

/-- C35: on an instruction whose opcode is declared with kind `RESV`, each of
`IsJumpOpcode`, `IsLoadConstantOpcode`, `IsCheckStackOpcode`, `IsEntryOptionalOpcode`,
`IsFrameOpcode`, `IsSetFrameOpcode`, `IsCallOpcode_Old`, `IsNativeCallOpcode` and
`IsDebugBreakCheckedOpcode` is false. -/
theorem classifiers_reject_reserved (mem : Memory) (instr : Int) (e : BytecodeEntry)
    (he : entryOf (DecodeOpcode mem instr) = some e) (hk : e.kind = .RESV) :
    IsJumpOpcode mem instr = false ∧ IsLoadConstantOpcode mem instr = false ∧
      IsCheckStackOpcode mem instr = false ∧ IsEntryOptionalOpcode mem instr = false ∧
      IsFrameOpcode mem instr = false ∧ IsSetFrameOpcode mem instr = false ∧
      IsCallOpcode_Old mem instr = false ∧ IsNativeCallOpcode mem instr = false ∧
      IsDebugBreakCheckedOpcode mem instr = false := by
  rw [IsJumpOpcode_eq, IsLoadConstantOpcode_eq, IsCheckStackOpcode_eq,
    IsEntryOptionalOpcode_eq, IsFrameOpcode_eq, IsSetFrameOpcode_eq, IsCallOpcode_Old_eq,
    IsNativeCallOpcode_eq, IsDebugBreakCheckedOpcode_eq]
  exact reserved_values (mem (instr + 0)) e he hk

set_option maxRecDepth 100000 in
theorem classifiers_reject_reserved_witness :
    entryOf (DecodeOpcode (memoryOf [40, 0, 0, 0]) 0) =
        some (V "Unused00_Old" .zero .RESV .num .num .ign) ∧
      IsCallOpcode_Old (memoryOf [40, 0, 0, 0]) 0 = false ∧
      entryOf (DecodeOpcode (memoryOf [91]) 0) =
        some (V "Unused00" .zero .RESV .ign .ign .ign) ∧
      IsJumpOpcode (memoryOf [91]) 0 = false :=
  ⟨by decide,
    (classifiers_reject_reserved (memoryOf [40, 0, 0, 0]) 0
      (V "Unused00_Old" .zero .RESV .num .num .ign) (by decide) rfl).2.2.2.2.2.2.1,
    by decide,
    (classifiers_reject_reserved (memoryOf [91]) 0
      (V "Unused00" .zero .RESV .ign .ign .ign) (by decide) rfl).1⟩

end KernelBytecode
